import Mathlib

/-!
Shallow embedding of the BoardingLab core: the deterministic RNG
(`RandomGenerator`), the passenger model (`Passenger.js`), the aircraft
layout (`Aircraft.js`), the boarding simulator (`Simulation.js`), the
scheduling-contract runner (`AlgorithmRunner.js`) and the genetic
optimizer's fitness evaluation (`GeneticOptimizer.js`).

JavaScript `Map`s keyed by row are embedded as `List (Option _)` indexed by
row; passenger maps iterated in insertion order are embedded as `List`s in
insertion order; JS numbers are embedded as `Nat` / `Int` / `ℚ` as
appropriate; JS `Array.prototype.sort` (stable since ES2019) is embedded as
a stable insertion sort with the same comparator.
-/

namespace BoardingLab

/-- Walk-speed classes (`WalkSpeed` in Passenger.js). -/
inductive WalkSpeed
  | slow
  | normal
  | fast
deriving DecidableEq, Repr

/-- Carry-on size classes (`CarryOnSize` in Passenger.js). -/
inductive CarryOnSize
  | noBag
  | small
  | large
deriving DecidableEq, Repr

/-- Compliance classes (`ComplianceLevel` in Passenger.js). -/
inductive Compliance
  | strict
  | normal
  | opportunistic
deriving DecidableEq, Repr

/-- `SPEED_MULTIPLIERS` from Passenger.js (cells per time step). Stored on the
JS passenger as a derived field; embedded here as a pure function. -/
def speedMultiplier : WalkSpeed → ℚ
  | WalkSpeed.slow => 7/10
  | WalkSpeed.normal => 1
  | WalkSpeed.fast => 13/10

/-- `STOW_TIMES` from Passenger.js (time steps to stow luggage). -/
def stowTime : CarryOnSize → Nat
  | CarryOnSize.noBag => 0
  | CarryOnSize.small => 3
  | CarryOnSize.large => 8

/-- A passenger (`Passenger` class in Passenger.js). The JS column letter
(A..F) is embedded as its 0-based index (`charCodeAt` offset from A), which
is exactly how the source compares columns against the aisle position. The
derived fields `speedMultiplier`/`stowTime` are pure functions of the
stored fields and are embedded as the functions above. -/
structure Passenger where
  id : Nat
  row : Nat
  col : Nat
  walkSpeed : WalkSpeed
  carryOnSize : CarryOnSize
  compliance : Compliance
deriving DecidableEq, Repr

/-! ### RandomGenerator (RandomGenerator.js) -/

/-- MINSTD modulus `2^31 - 1` used by `RandomGenerator.next`. -/
def lcgModulus : Nat := 2147483647

/-- Deterministic LCG random generator (`RandomGenerator` class). -/
structure RandomGenerator where
  seed : Nat
  initialSeed : Nat
deriving DecidableEq, Repr

/-- `new RandomGenerator(seed)`. -/
def RandomGenerator.create (seed : Nat) : RandomGenerator :=
  { seed := seed, initialSeed := seed }

/-- `RandomGenerator.reset()`. -/
def RandomGenerator.reset (g : RandomGenerator) : RandomGenerator :=
  { g with seed := g.initialSeed }

/-- `RandomGenerator.setSeed(seed)`. -/
def RandomGenerator.setSeed (g : RandomGenerator) (seed : Nat) : RandomGenerator :=
  { g with seed := seed, initialSeed := seed }

/-- `RandomGenerator.next()`: advance the seed by
`seed' = (48271 * seed) mod (2^31 - 1)` and return `seed' / (2^31 - 1)`. -/
def RandomGenerator.next (g : RandomGenerator) : RandomGenerator × ℚ :=
  let s := (48271 * g.seed) % lcgModulus
  ({ g with seed := s }, (s : ℚ) / (lcgModulus : ℚ))

/-- `RandomGenerator.nextInt(min, max)`:
`floor(next() * (max - min + 1)) + min`. -/
def RandomGenerator.nextInt (g : RandomGenerator) (lo hi : Int) : RandomGenerator × Int :=
  let (g1, v) := g.next
  (g1, Int.floor (v * ((hi : ℚ) - (lo : ℚ) + 1)) + lo)

/-- `RandomGenerator.pick(array)`: `array[nextInt(0, array.length - 1)]`.
For the nonempty lists this project picks from, the index is always in
range; the `getD` default is unreachable there. -/
def RandomGenerator.pick {α} [Inhabited α] (g : RandomGenerator) (l : List α) :
    RandomGenerator × α :=
  let (g1, i) := g.nextInt 0 ((l.length : Int) - 1)
  (g1, l.getD i.toNat default)

/-- Swap two positions of a list (the JS destructuring swap inside
`shuffle`). Out-of-range indices leave the list unchanged (unreachable for
the in-range indices `shuffle` produces). -/
def listSwap {α} (l : List α) (i j : Nat) : List α :=
  match l.get? i, l.get? j with
  | Option.some a, Option.some b => (l.set i b).set j a
  | _, _ => l

/-- The body of `RandomGenerator.shuffle`: Fisher-Yates, iterating `i` from
`length - 1` down to `1`, swapping index `i` with `j = nextInt(0, i)`. -/
def RandomGenerator.shuffleGo {α} (g : RandomGenerator) (l : List α) :
    Nat → RandomGenerator × List α
  | 0 => (g, l)
  | Nat.succ i =>
    let (g1, j) := g.nextInt 0 ((Nat.succ i : Nat) : Int)
    RandomGenerator.shuffleGo g1 (listSwap l (Nat.succ i) j.toNat) i

/-- `RandomGenerator.shuffle(array)`. -/
def RandomGenerator.shuffle {α} (g : RandomGenerator) (l : List α) :
    RandomGenerator × List α :=
  RandomGenerator.shuffleGo g l (l.length - 1)

/-! ### Passenger generation (generatePassengers in Passenger.js) -/

/-- The weighted walk-speed list passed to `rng.pick` in
`generatePassengers`. -/
def walkSpeedChoices : List WalkSpeed :=
  [WalkSpeed.slow, WalkSpeed.normal, WalkSpeed.normal, WalkSpeed.normal,
   WalkSpeed.fast]

/-- The weighted carry-on list passed to `rng.pick` in
`generatePassengers`. -/
def carryOnChoices : List CarryOnSize :=
  [CarryOnSize.noBag, CarryOnSize.small, CarryOnSize.small, CarryOnSize.small,
   CarryOnSize.large]

/-- The weighted compliance list passed to `rng.pick` in
`generatePassengers`. -/
def complianceChoices : List Compliance :=
  [Compliance.strict, Compliance.normal, Compliance.normal, Compliance.normal,
   Compliance.opportunistic]

instance : Inhabited WalkSpeed := ⟨WalkSpeed.normal⟩
instance : Inhabited CarryOnSize := ⟨CarryOnSize.small⟩
instance : Inhabited Compliance := ⟨Compliance.normal⟩

/-- One iteration of the `selectedSeats.map` callback in
`generatePassengers`: three sequential `rng.pick` draws, then the
passenger with `id = index + 1`. -/
def genOnePassenger (g : RandomGenerator) (index : Nat) (seat : Nat × Nat) :
    RandomGenerator × Passenger :=
  let (g1, ws) := g.pick walkSpeedChoices
  let (g2, cs) := g1.pick carryOnChoices
  let (g3, cp) := g2.pick complianceChoices
  (g3, { id := index + 1, row := seat.1, col := seat.2, walkSpeed := ws,
         carryOnSize := cs, compliance := cp })

/-- The `selectedSeats.map` loop of `generatePassengers`, threading the RNG
left to right. -/
def genPassengerList (g : RandomGenerator) (index : Nat) :
    List (Nat × Nat) → RandomGenerator × List Passenger
  | [] => (g, [])
  | seat :: rest =>
    let (g1, p) := genOnePassenger g index seat
    let (g2, ps) := genPassengerList g1 (index + 1) rest
    (g2, p :: ps)

/-- All seats `(row, column)` for rows `1..rows` (outer loop) and columns
in order (inner loop), as built at the top of `generatePassengers`. -/
def allSeats (rows numCols : Nat) : List (Nat × Nat) :=
  (List.range rows).flatMap fun r => (List.range numCols).map fun c => (r + 1, c)

/-- `generatePassengers({count, rows, columns, rng})`. -/
def generatePassengers (count rows numCols : Nat) (g : RandomGenerator) :
    RandomGenerator × List Passenger :=
  let (g1, shuffled) := g.shuffle (allSeats rows numCols)
  genPassengerList g1 0 (shuffled.take count)

/-! ### Aircraft (Aircraft.js) -/

/-- The aircraft layout (`Aircraft` class). `binCapacity` is the per-row
remaining bin capacity, index `r - 1` holding row `r` (the JS `Map` is
keyed by rows `1..rows`); `seats` is the set of occupied `(row, col)` seat
keys (the JS seat `Map` stores a passenger reference per key — only
occupancy is read back); `aisle` holds the passenger id occupying each
aisle cell `0..rows` (cell 0 is the entry point). -/
structure Aircraft where
  rows : Nat
  numCols : Nat
  aislePosition : Nat
  binCapacityPerRow : Int
  binCapacity : List Int
  seats : List (Nat × Nat)
  aisle : List (Option Nat)
deriving DecidableEq, Repr

/-- `new Aircraft(config)`. -/
def Aircraft.create (rows numCols aislePosition : Nat) (binCapacityPerRow : Int) :
    Aircraft :=
  { rows := rows, numCols := numCols, aislePosition := aislePosition,
    binCapacityPerRow := binCapacityPerRow,
    binCapacity := List.replicate rows binCapacityPerRow,
    seats := [],
    aisle := List.replicate (rows + 1) Option.none }

/-- `Aircraft.reset()`: clear seats and aisle, restore bin capacities. -/
def Aircraft.reset (a : Aircraft) : Aircraft :=
  { a with binCapacity := List.replicate a.rows a.binCapacityPerRow,
           seats := [],
           aisle := List.replicate (a.rows + 1) Option.none }

/-- `Aircraft.isSeatOccupied(row, column)`. -/
def Aircraft.isSeatOccupied (a : Aircraft) (row col : Nat) : Bool :=
  (row, col) ∈ a.seats

/-- `Aircraft.seatPassenger(passenger)`: mark the passenger's seat key
occupied. -/
def Aircraft.seatPassenger (a : Aircraft) (p : Passenger) : Aircraft :=
  { a with seats := (p.row, p.col) :: a.seats }

/-- `Aircraft.isAisleOccupied(row)`. For a row outside `0..rows` the JS
`Map.get` yields `undefined`, and `undefined !== null` is true; hence the
out-of-range branch returns `true`. All call sites are in range. -/
def Aircraft.isAisleOccupied (a : Aircraft) (row : Nat) : Bool :=
  match a.aisle.get? row with
  | Option.some cell => cell.isSome
  | Option.none => true

/-- `Aircraft.placeInAisle(passenger, row)` (storing the id). -/
def Aircraft.placeInAisle (a : Aircraft) (pid row : Nat) : Aircraft :=
  { a with aisle := a.aisle.set row (Option.some pid) }

/-- `Aircraft.removeFromAisle(row)`. -/
def Aircraft.removeFromAisle (a : Aircraft) (row : Nat) : Aircraft :=
  { a with aisle := a.aisle.set row Option.none }

/-- Units of bin capacity a carry-on requires: the JS
`carryOnSize === 'small' ? 1 : 2` (evaluated only when the size is not
none). -/
def requiredUnits (sz : CarryOnSize) : Int :=
  if sz = CarryOnSize.small then 1 else 2

/-- Row `r`'s remaining bin capacity, if `r` is a valid row key. -/
def Aircraft.binCapAt? (a : Aircraft) (row : Nat) : Option Int :=
  if 1 ≤ row then a.binCapacity.get? (row - 1) else Option.none

/-- `Aircraft.hasBinCapacity(row, carryOnSize)`. A missing row key makes
the JS comparison `undefined >= required` false. -/
def Aircraft.hasBinCapacity (a : Aircraft) (row : Nat) (sz : CarryOnSize) : Bool :=
  match sz with
  | CarryOnSize.noBag => true
  | _ =>
    match a.binCapAt? row with
    | Option.some current => requiredUnits sz ≤ current
    | Option.none => false

/-- `Aircraft.useBinCapacity(row, carryOnSize)`: returns the updated
aircraft and the JS boolean result. -/
def Aircraft.useBinCapacity (a : Aircraft) (row : Nat) (sz : CarryOnSize) :
    Aircraft × Bool :=
  match sz with
  | CarryOnSize.noBag => (a, true)
  | _ =>
    match a.binCapAt? row with
    | Option.some current =>
      if requiredUnits sz ≤ current then
        ({ a with binCapacity := a.binCapacity.set (row - 1) (current - requiredUnits sz) },
         true)
      else (a, false)
    | Option.none => (a, false)

/-- `Aircraft.getBlockingSeats(row, targetColumn)`: the occupied seat
columns between the aisle and the target seat, in the scan order of the
source (left side scans from the aisle outward toward the target,
descending; right side ascending). -/
def Aircraft.getBlockingSeats (a : Aircraft) (row targetCol : Nat) : List Nat :=
  if targetCol < a.aislePosition then
    ((List.range (a.aislePosition - targetCol - 1)).map
        (fun k => a.aislePosition - 1 - k)).filter
      (fun c => a.isSeatOccupied row c)
  else
    ((List.range (targetCol - a.aislePosition)).map
        (fun k => a.aislePosition + k)).filter
      (fun c => a.isSeatOccupied row c)

/-! ### Simulation (Simulation.js) -/

/-- Passenger state during simulation (`PassengerState`). -/
inductive PassengerState
  | waiting
  | walking
  | stowing
  | shuffling
  | seating
  | seated
deriving DecidableEq, Repr

/-- Event types recorded during simulation (`EventType`). -/
inductive EventType
  | enter
  | move
  | stowStart
  | stowEnd
  | shuffleStart
  | shuffleEnd
  | seat
  | aisleBlocked
  | binFull
deriving DecidableEq, Repr

/-- The kind-specific payload spread into an event record. -/
inductive EventData
  | noData
  | atRow (row : Int)
  | moved (src dst : Int)
  | blockedAt (row blockedBy : Int)
  | shuffleInfo (row : Int) (blocking : List Nat)
  | seatPos (row col : Nat)
deriving DecidableEq, Repr

/-- One event record (`Simulation._recordEvent`). -/
structure Event where
  step : Nat
  type : EventType
  passengerId : Nat
  passengerRow : Nat
  passengerColumn : Nat
  data : EventData
deriving DecidableEq, Repr

/-- Mutable per-passenger run-state (the values of
`Simulation.passengerStates`). `stowRemaining` and `shuffleRemaining` are
`Int` because the JS code decrements before testing `<= 0`. -/
structure PState where
  passenger : Passenger
  state : PassengerState
  aisleRow : Int
  stowRemaining : Int
  shuffleRemaining : Int
  waitTime : Nat
  enteredAt : Int
  seatedAt : Int
deriving DecidableEq, Repr

/-- The run-state created for each passenger in `Simulation.reset()`. -/
def initPState (p : Passenger) : PState :=
  { passenger := p, state := PassengerState.waiting, aisleRow := -1,
    stowRemaining := 0, shuffleRemaining := 0, waitTime := 0,
    enteredAt := -1, seatedAt := -1 }

/-- The whole simulation state. `passengerStates` is kept in the insertion
order of the JS `Map` (the original passenger list order); `queue` holds
the boarding-order passenger ids still waiting for admission. -/
structure Simulation where
  aircraft : Aircraft
  currentStep : Nat
  isComplete : Bool
  events : List Event
  passengerStates : List PState
  queue : List Nat
deriving DecidableEq, Repr

/-- `new Simulation({passengers, aircraft})` followed by the constructor's
`reset()` call. -/
def Simulation.init (aircraft : Aircraft) (passengers : List Passenger) : Simulation :=
  { aircraft := aircraft.reset, currentStep := 0, isComplete := false,
    events := [], passengerStates := passengers.map initPState, queue := [] }

/-- `Simulation.setBoardingOrder(orderedIds)`. The JS queue stores the
run-state objects looked up by id; the embedding stores the ids and looks
the run-state up at use. -/
def Simulation.setBoardingOrder (s : Simulation) (orderedIds : List Nat) : Simulation :=
  { s with queue := orderedIds }

/-- Look up the run-state of passenger `pid` (the JS
`passengerStates.get(id)`; the list search is equivalent under unique
ids). -/
def findPS (l : List PState) (pid : Nat) : Option PState :=
  l.find? fun ps => ps.passenger.id = pid

/-- Mutate the run-state of passenger `pid` in place. -/
def updatePS (l : List PState) (pid : Nat) (f : PState → PState) : List PState :=
  l.map fun ps => if ps.passenger.id = pid then f ps else ps

/-- `Simulation._recordEvent(type, passenger, data)`. -/
def Simulation.recordEvent (s : Simulation) (t : EventType) (p : Passenger)
    (d : EventData) : Simulation :=
  { s with events := s.events ++
      [{ step := s.currentStep, type := t, passengerId := p.id,
         passengerRow := p.row, passengerColumn := p.col, data := d }] }

/-- `Simulation._startSeating(ps)`: check blocking seats; enter SHUFFLING
with `3 × blocking.length` remaining ticks, or enter SEATING directly. -/
def Simulation.startSeating (s : Simulation) (pid : Nat) : Simulation :=
  match findPS s.passengerStates pid with
  | Option.none => s
  | Option.some ps =>
    let blocking := s.aircraft.getBlockingSeats ps.passenger.row ps.passenger.col
    if blocking.length > 0 then
      let s1 := { s with passengerStates := updatePS s.passengerStates pid fun q =>
        { q with state := PassengerState.shuffling,
                 shuffleRemaining := (blocking.length : Int) * 3 } }
      s1.recordEvent EventType.shuffleStart ps.passenger
        (EventData.shuffleInfo ps.aisleRow blocking)
    else
      { s with passengerStates := updatePS s.passengerStates pid fun q =>
        { q with state := PassengerState.seating } }

/-- `Simulation._processWalking(ps)`. -/
def Simulation.processWalking (s : Simulation) (pid : Nat) : Simulation :=
  match findPS s.passengerStates pid with
  | Option.none => s
  | Option.some ps =>
    let p := ps.passenger
    if ps.aisleRow = (p.row : Int) then
      if p.carryOnSize ≠ CarryOnSize.noBag then
        let s1 := { s with passengerStates := updatePS s.passengerStates pid fun q =>
          { q with state := PassengerState.stowing,
                   stowRemaining := (stowTime p.carryOnSize : Int) } }
        let s2 := s1.recordEvent EventType.stowStart p (EventData.atRow ps.aisleRow)
        if ¬ s2.aircraft.hasBinCapacity ps.aisleRow.toNat p.carryOnSize then
          s2.recordEvent EventType.binFull p (EventData.atRow ps.aisleRow)
        else s2
      else
        s.startSeating pid
    else
      let nextRow := ps.aisleRow + 1
      if nextRow ≤ (s.aircraft.rows : Int) ∧
          ¬ s.aircraft.isAisleOccupied nextRow.toNat then
        let a1 := (s.aircraft.removeFromAisle ps.aisleRow.toNat).placeInAisle p.id
          nextRow.toNat
        let s1 := { s with
          aircraft := a1,
          passengerStates := updatePS s.passengerStates pid (fun q =>
            { q with aisleRow := nextRow }) }
        s1.recordEvent EventType.move p (EventData.moved ps.aisleRow nextRow)
      else
        let s1 := { s with passengerStates := updatePS s.passengerStates pid fun q =>
          { q with waitTime := q.waitTime + 1 } }
        s1.recordEvent EventType.aisleBlocked p (EventData.blockedAt ps.aisleRow nextRow)

/-- `Simulation._processStowing(ps)`: decrement, then either finish
stowing (consume bin capacity best-effort, record STOW_END, evaluate
seating eligibility) or keep blocking the aisle. -/
def Simulation.processStowing (s : Simulation) (pid : Nat) : Simulation :=
  match findPS s.passengerStates pid with
  | Option.none => s
  | Option.some ps =>
    let remaining := ps.stowRemaining - 1
    if remaining ≤ 0 then
      let s1 := { s with
        aircraft := (s.aircraft.useBinCapacity ps.aisleRow.toNat
          ps.passenger.carryOnSize).1,
        passengerStates := updatePS s.passengerStates pid fun q =>
          { q with stowRemaining := remaining } }
      let s2 := s1.recordEvent EventType.stowEnd ps.passenger (EventData.atRow ps.aisleRow)
      s2.startSeating pid
    else
      { s with passengerStates := updatePS s.passengerStates pid fun q =>
        { q with stowRemaining := remaining, waitTime := q.waitTime + 1 } }

/-- `Simulation._processShuffling(ps)`. -/
def Simulation.processShuffling (s : Simulation) (pid : Nat) : Simulation :=
  match findPS s.passengerStates pid with
  | Option.none => s
  | Option.some ps =>
    let remaining := ps.shuffleRemaining - 1
    let s1 := { s with passengerStates := updatePS s.passengerStates pid fun q =>
      { q with shuffleRemaining := remaining, waitTime := q.waitTime + 1 } }
    if remaining ≤ 0 then
      let s2 := s1.recordEvent EventType.shuffleEnd ps.passenger (EventData.atRow ps.aisleRow)
      { s2 with passengerStates := updatePS s2.passengerStates pid fun q =>
        { q with state := PassengerState.seating } }
    else s1

/-- `Simulation._processSeating(ps)`. -/
def Simulation.processSeating (s : Simulation) (pid : Nat) : Simulation :=
  match findPS s.passengerStates pid with
  | Option.none => s
  | Option.some ps =>
    let a1 := (s.aircraft.removeFromAisle ps.aisleRow.toNat).seatPassenger ps.passenger
    let s1 := { s with
      aircraft := a1,
      passengerStates := updatePS s.passengerStates pid (fun q =>
        { q with state := PassengerState.seated,
                 seatedAt := (s.currentStep : Int) }) }
    s1.recordEvent EventType.seat ps.passenger
      (EventData.seatPos ps.passenger.row ps.passenger.col)

/-- `Simulation._processPassengerInAisle(ps)`: dispatch on the current
state. -/
def Simulation.processPassengerInAisle (s : Simulation) (pid : Nat) : Simulation :=
  match findPS s.passengerStates pid with
  | Option.none => s
  | Option.some ps =>
    match ps.state with
    | PassengerState.walking => s.processWalking pid
    | PassengerState.stowing => s.processStowing pid
    | PassengerState.shuffling => s.processShuffling pid
    | PassengerState.seating => s.processSeating pid
    | _ => s

/-- The filter inside `Simulation._getAislePassengersSorted`. -/
def inAisleFilter (l : List PState) : List PState :=
  l.filter fun ps =>
    ps.state ≠ PassengerState.waiting ∧ ps.state ≠ PassengerState.seated ∧
      0 ≤ ps.aisleRow

/-- Stable insertion: the new element `x` goes after every existing
element `y` with `after x y`, and before the first `y` without it. This is
how a stable comparison sort (JS `Array.prototype.sort`, stable per
ES2019) places a later-input element among earlier ones. -/
def stableInsert {α} (after : α → α → Bool) (x : α) : List α → List α
  | [] => [x]
  | y :: ys =>
    if after x y then y :: stableInsert after x ys else x :: y :: ys

/-- Stable insertion sort, processing the input left to right. -/
def stableSort {α} (after : α → α → Bool) (l : List α) : List α :=
  l.foldl (fun acc x => stableInsert after x acc) []

/-- Stable sort by descending `aisleRow` (`inAisle.sort((a, b) =>
b.aisleRow - a.aisleRow)`): a later element stays after earlier ones of
greater or equal `aisleRow`. -/
def sortAisleDesc (l : List PState) : List PState :=
  stableSort (fun x y => decide (x.aisleRow ≤ y.aisleRow)) l

/-- `Simulation._getAislePassengersSorted()`, reduced to the ids the step
loop dispatches on. -/
def Simulation.aislePassengersSorted (s : Simulation) : List Nat :=
  (sortAisleDesc (inAisleFilter s.passengerStates)).map fun ps => ps.passenger.id

/-- `Simulation._tryAddFromQueue()`: admit the head of the queue into
entry cell 0 when that cell is free. -/
def Simulation.tryAddFromQueue (s : Simulation) : Simulation :=
  match s.queue with
  | [] => s
  | pid :: rest =>
    if s.aircraft.isAisleOccupied 0 then s
    else
      match findPS s.passengerStates pid with
      | Option.none => s
      | Option.some ps =>
        let s1 := { s with
          queue := rest,
          aircraft := s.aircraft.placeInAisle pid 0,
          passengerStates := updatePS s.passengerStates pid (fun q =>
            { q with state := PassengerState.walking, aisleRow := 0,
                     enteredAt := (s.currentStep : Int) }) }
        s1.recordEvent EventType.enter ps.passenger EventData.noData

/-- `Simulation._checkCompletion()`. -/
def Simulation.checkCompletion (s : Simulation) : Simulation :=
  if s.passengerStates.all (fun ps => ps.state = PassengerState.seated) then
    { s with isComplete := true }
  else s

/-- The aisle-processing phase of one tick: increment the step counter and
process the in-aisle passengers captured at the start of the tick, back to
front. -/
def Simulation.stepAisle (s : Simulation) : Simulation :=
  let s1 := { s with currentStep := s.currentStep + 1 }
  s1.aislePassengersSorted.foldl (fun t pid => t.processPassengerInAisle pid) s1

/-- `Simulation.step()` (as a state transformer; the JS boolean result is
`!isComplete` of the new state). -/
def Simulation.step (s : Simulation) : Simulation :=
  if s.isComplete then s
  else ((s.stepAisle).tryAddFromQueue).checkCompletion

/-- `n` consecutive calls of `step`. -/
def Simulation.stepN (s : Simulation) : Nat → Simulation
  | 0 => s
  | Nat.succ n => (s.stepN n).step

/-- The loop of `Simulation.runToCompletion(maxSteps)`, with explicit
fuel. Each iteration of the JS `while` increments `currentStep`, so
`maxSteps` iterations of fuel always suffice. -/
def Simulation.runLoop (maxSteps : Nat) : Nat → Simulation → Simulation
  | 0, s => s
  | Nat.succ fuel, s =>
    if ¬ s.isComplete ∧ s.currentStep < maxSteps then
      Simulation.runLoop maxSteps fuel s.step
    else s

/-- `Simulation.runToCompletion(maxSteps)`: the final state; the JS return
value is its `currentStep`. -/
def Simulation.runToCompletion (s : Simulation) (maxSteps : Nat) : Simulation :=
  Simulation.runLoop maxSteps maxSteps s

/-- One entry of `Simulation.getSnapshot()`'s passenger lists. -/
structure SnapshotEntry where
  id : Nat
  row : Nat
  column : Nat
  state : PassengerState
  aisleRow : Int
  waitTime : Nat
deriving DecidableEq, Repr

/-- `Simulation.getSnapshot()`. -/
structure Snapshot where
  step : Nat
  isComplete : Bool
  passengersInAisle : List SnapshotEntry
  passengersSeated : List SnapshotEntry
  passengersWaiting : List SnapshotEntry
  queueLength : Nat
  seatedCount : Nat
  totalPassengers : Nat
deriving DecidableEq, Repr

/-- The snapshot entry built for one run-state. -/
def snapshotEntry (ps : PState) : SnapshotEntry :=
  { id := ps.passenger.id, row := ps.passenger.row, column := ps.passenger.col,
    state := ps.state, aisleRow := ps.aisleRow, waitTime := ps.waitTime }

/-- `Simulation.getSnapshot()`: partition the run-states in iteration
order. -/
def Simulation.getSnapshot (s : Simulation) : Snapshot :=
  let seatedL := (s.passengerStates.filter fun ps =>
    ps.state = PassengerState.seated).map snapshotEntry
  let waitingL := (s.passengerStates.filter fun ps =>
    ps.state = PassengerState.waiting).map snapshotEntry
  let inAisleL := (s.passengerStates.filter fun ps =>
    ps.state ≠ PassengerState.seated ∧ ps.state ≠ PassengerState.waiting).map
      snapshotEntry
  { step := s.currentStep, isComplete := s.isComplete,
    passengersInAisle := inAisleL, passengersSeated := seatedL,
    passengersWaiting := waitingL, queueLength := s.queue.length,
    seatedCount := seatedL.length, totalPassengers := s.passengerStates.length }

/-! ### Algorithm runner (AlgorithmRunner.js) -/

/-- The stable JS sort `withPriority.sort((a, b) => b.priority - a.priority)`
on `(id, priority)` pairs: descending by priority, later input elements
staying after earlier ones of greater or equal priority. -/
def sortPriorityDesc (l : List (Nat × ℚ)) : List (Nat × ℚ) :=
  stableSort (fun x y => decide (x.2 ≤ y.2)) l

/-- The `passengers.map` building `(id, priority)` pairs in `runAlgorithm`
(the JS passes `passenger.toContext()`, a pure projection of the
passenger, to the priority function; the embedding lets the function take
the passenger directly). -/
def withPriority (f : Passenger → ℚ) (passengers : List Passenger) : List (Nat × ℚ) :=
  passengers.map fun p => (p.id, f p)

/-- `runAlgorithm(priorityFn, passengers, context)`: passenger ids in
boarding order, highest priority first. -/
def runAlgorithm (f : Passenger → ℚ) (passengers : List Passenger) : List Nat :=
  (sortPriorityDesc (withPriority f passengers)).map Prod.fst

/-- The outcome of one JS invocation of a priority function, as observed
by `validateAlgorithm`: a finite number, NaN, an infinity, a value of a
non-number type, or a thrown exception. -/
inductive JSValue
  | num (q : ℚ)
  | nan
  | posInf
  | negInf
  | nonNumber (typeName : String)
  | thrown (msg : String)
deriving DecidableEq, Repr

/-- `ValidationResult` from AlgorithmRunner.js. -/
structure ValidationResult where
  isValid : Bool
  errors : List String
  warnings : List String
deriving DecidableEq, Repr

/-- The sampling loop of `validateAlgorithm`: walk the test passengers in
order and stop at the first non-number / NaN / Infinity result or thrown
exception, producing its error message. (The wall-clock time-budget check
is real-time behavior outside this embedding; it can only add one more
error and never removes one.) -/
def collectErrors (f : Passenger → JSValue) : List Passenger → List String
  | [] => []
  | p :: rest =>
    match f p with
    | JSValue.num _ => collectErrors f rest
    | JSValue.nonNumber t =>
      ["Priority function returned " ++ t ++ ", expected number"]
    | JSValue.nan => ["Priority function returned NaN"]
    | JSValue.posInf => ["Priority function returned Infinity"]
    | JSValue.negInf => ["Priority function returned Infinity"]
    | JSValue.thrown m => ["Execution error: " ++ m]

/-- `validateAlgorithm(priorityFn, testPassengers, context)`. The
determinism re-check compares a second invocation with the first on the
first five sampled passengers; a pure function makes the two invocations
definitionally equal, so the filter below is provably empty. -/
def validateAlgorithm (f : Passenger → JSValue) (sample : List Passenger) :
    ValidationResult :=
  let errors := collectErrors f sample
  let errors2 := errors ++
    (if errors.isEmpty then
      ((sample.take 5).filter fun p => f p ≠ f p).map
        (fun _ => "Priority function is not deterministic")
    else [])
  if errors2.isEmpty then ValidationResult.mk true [] []
  else ValidationResult.mk false errors2 []

/-- Whether a `JSValue` is the finite-number outcome the contract
requires. -/
def isFiniteNum : JSValue → Bool
  | JSValue.num _ => true
  | _ => false

/-! ### Layout operation sequences (for the Aircraft invariants) -/

/-- The mutating operations `Aircraft` exposes. -/
inductive LayoutOp
  | consume (row : Nat) (sz : CarryOnSize)
  | seatP (p : Passenger)
  | place (pid row : Nat)
  | remove (row : Nat)
  | reset
deriving DecidableEq, Repr

/-- Apply one layout operation. -/
def applyOp (a : Aircraft) : LayoutOp → Aircraft
  | LayoutOp.consume row sz => (a.useBinCapacity row sz).1
  | LayoutOp.seatP p => a.seatPassenger p
  | LayoutOp.place pid row => a.placeInAisle pid row
  | LayoutOp.remove row => a.removeFromAisle row
  | LayoutOp.reset => a.reset

/-- Apply a sequence of layout operations left to right. -/
def applyOps (a : Aircraft) (ops : List LayoutOp) : Aircraft :=
  ops.foldl applyOp a

/-! ### Genetic optimizer fitness (GeneticOptimizer.js) -/

/-- The stable ascending sort
`evaluatedPop.sort((a, b) => a.fitness - b.fitness)` on
`(weights, fitness)` pairs. -/
def sortFitnessAsc {α} (l : List (α × ℚ)) : List (α × ℚ) :=
  stableSort (fun x y => decide (y.2 ≤ x.2)) l

/-- Scenario `i` pre-generated in `GeneticOptimizer.optimize`: seed
`12345 + i`, 114 passengers, the optimizer aircraft's rows and columns. -/
def optimizerScenario (a : Aircraft) (i : Nat) : List Passenger :=
  (generatePassengers 114 a.rows a.numCols (RandomGenerator.create (12345 + i))).2

/-- The three test scenarios of `GeneticOptimizer.optimize`. -/
def optimizerScenarios (a : Aircraft) : List (List Passenger) :=
  [optimizerScenario a 0, optimizerScenario a 1, optimizerScenario a 2]

/-- One scenario evaluation inside `GeneticOptimizer._evaluateFitness`:
sort the passengers by descending priority (`(a, b) => b.priority -
a.priority`, applied to the raw passengers), build a simulator on the
optimizer's aircraft (the `Simulation` constructor resets it), run to
completion with a 5000-step guard, and take the steps. The genome enters
only through the priority function `createPriorityFn(weights)` produces,
so the embedding is parameterized by that function. -/
def fitnessScenarioSteps (priorityFn : Passenger → ℚ) (a : Aircraft)
    (passengers : List Passenger) : Nat :=
  let info := passengers.map fun p => (p.id, priorityFn p)
  let orderedIds := (sortPriorityDesc info).map Prod.fst
  (((Simulation.init a passengers).setBoardingOrder orderedIds).runToCompletion
    5000).currentStep

/-- `GeneticOptimizer._evaluateFitness(weights, testScenarios)`: the total
steps over the scenarios divided by their number. -/
def evaluateFitness (priorityFn : Passenger → ℚ) (a : Aircraft)
    (testScenarios : List (List Passenger)) : ℚ :=
  ((testScenarios.map fun ps =>
      (fitnessScenarioSteps priorityFn a ps : ℚ)).sum) /
    (testScenarios.length : ℚ)

/-! ### Walk-speed/compliance erasure (for the non-interference claim) -/

/-- Normalize the two behavioral attributes the simulator never reads. -/
@[reducible] def scrubPassenger (p : Passenger) : Passenger :=
  { p with walkSpeed := WalkSpeed.normal, compliance := Compliance.normal }

/-- Normalize a run-state's passenger. -/
@[reducible] def scrubPS (ps : PState) : PState :=
  { ps with passenger := scrubPassenger ps.passenger }

/-- Normalize every run-state of a simulation. -/
@[reducible] def scrubSim (s : Simulation) : Simulation :=
  { s with passengerStates := s.passengerStates.map scrubPS }

/-! ### The simulation invariant -/

/-- Whether a state occupies an aisle cell (WALKING, STOWING, SHUFFLING or
SEATING). -/
def isInAisleStateB : PassengerState → Bool
  | PassengerState.walking => true
  | PassengerState.stowing => true
  | PassengerState.shuffling => true
  | PassengerState.seating => true
  | _ => false

/-- A held aisle-track cell at row `r` is backed by an in-aisle run-state
with the held id sitting at `r`. -/
def cellBacked (l : List PState) (r : Nat) : Option Nat → Prop
  | Option.none => True
  | Option.some pid =>
    ∃ ps ∈ l, ps.passenger.id = pid ∧ isInAisleStateB ps.state = true ∧
      ps.aisleRow = (r : Int)

instance (l : List PState) (r : Nat) (cell : Option Nat) :
    Decidable (cellBacked l r cell) := by
  cases cell <;> unfold cellBacked <;> exact inferInstance

/-- The coupling invariant between run-states, the aisle track, and the
admission queue, preserved by every simulation step:
run-state ids are unique; the aisle track has one cell per row plus the
entry cell; every in-aisle run-state sits at an in-range cell whose track
entry holds its id; every held track entry is backed by such a run-state;
queued ids belong to WAITING run-states and are unique; and `aisleRow` is
`-1` exactly for states not yet admitted. -/
def Inv (s : Simulation) : Prop :=
  (s.passengerStates.map fun ps => ps.passenger.id).Nodup ∧
  s.aircraft.aisle.length = s.aircraft.rows + 1 ∧
  (∀ ps ∈ s.passengerStates, isInAisleStateB ps.state = true →
    0 ≤ ps.aisleRow ∧ ps.aisleRow ≤ (s.aircraft.rows : Int) ∧
    s.aircraft.aisle.get? ps.aisleRow.toNat = Option.some (Option.some ps.passenger.id)) ∧
  (∀ r ∈ List.range s.aircraft.aisle.length,
    cellBacked s.passengerStates r (s.aircraft.aisle.getD r Option.none)) ∧
  (∀ pid ∈ s.queue, ∃ ps ∈ s.passengerStates,
    ps.passenger.id = pid ∧ ps.state = PassengerState.waiting) ∧
  s.queue.Nodup ∧
  (∀ ps ∈ s.passengerStates, -1 ≤ ps.aisleRow ∧
    (ps.state = PassengerState.waiting → ps.aisleRow = -1))

instance (s : Simulation) : Decidable (Inv s) := by
  unfold Inv
  exact inferInstance

/-- The state and aisle cell of every passenger, in insertion order. -/
def statesAndRows (s : Simulation) : List (PassengerState × Int) :=
  s.passengerStates.map fun ps => (ps.state, ps.aisleRow)

/-- The two-passenger single-row aircraft of the spec's concrete
scenario: one row, six columns, aisle index 3, default bin capacity. -/
def scenarioAircraft : Aircraft := Aircraft.create 1 6 3 6

/-- P1 of the concrete scenario: seat (row 1, column A), no carry-on. -/
def scenarioP1 : Passenger :=
  { id := 1, row := 1, col := 0, walkSpeed := WalkSpeed.normal,
    carryOnSize := CarryOnSize.noBag, compliance := Compliance.normal }

/-- P2 of the concrete scenario: seat (row 1, column D), no carry-on. -/
def scenarioP2 : Passenger :=
  { id := 2, row := 1, col := 3, walkSpeed := WalkSpeed.normal,
    carryOnSize := CarryOnSize.noBag, compliance := Compliance.normal }

/-- The concrete scenario's initial simulation, boarding order [P1, P2]. -/
def scenarioSim : Simulation :=
  (Simulation.init scenarioAircraft [scenarioP1, scenarioP2]).setBoardingOrder [1, 2]

/-- P1 with different behavioral attributes (slow, opportunistic) but the
same seat and carry-on. -/
def speedVariantP1 : Passenger :=
  { scenarioP1 with walkSpeed := WalkSpeed.slow, compliance := Compliance.opportunistic }

/-- The run-state of P1 after the first tick of the concrete scenario:
admitted, WALKING at entry cell 0. -/
def walkWitnessPS : PState :=
  { passenger := scenarioP1, state := PassengerState.walking, aisleRow := 0,
    stowRemaining := 0, shuffleRemaining := 0, waitTime := 0,
    enteredAt := 1, seatedAt := -1 }

/-- The run-state of P1 one tick later: WALKING at cell 1. -/
def walkWitnessPS1 : PState :=
  { walkWitnessPS with aisleRow := 1 }

/-- A passenger with a small carry-on at seat (1, A). -/
def bagP1 : Passenger :=
  { id := 1, row := 1, col := 0, walkSpeed := WalkSpeed.normal,
    carryOnSize := CarryOnSize.small, compliance := Compliance.normal }

/-- A STOWING run-state for `bagP1` at cell 1 with 1 remaining tick. -/
def stowingWitnessPS : PState :=
  { passenger := bagP1, state := PassengerState.stowing, aisleRow := 1,
    stowRemaining := 1, shuffleRemaining := 0, waitTime := 0,
    enteredAt := 1, seatedAt := -1 }

/-- A one-row aircraft with zero bin capacity holding `stowingWitnessPS`. -/
def stowingWitnessSim : Simulation :=
  { aircraft := Aircraft.create 1 6 3 0, currentStep := 2, isComplete := false,
    events := [], passengerStates := [stowingWitnessPS], queue := [] }

/-- A WALKING run-state for `bagP1` that has reached its row (cell 1). -/
def walkingBagPS : PState :=
  { passenger := bagP1, state := PassengerState.walking, aisleRow := 1,
    stowRemaining := 0, shuffleRemaining := 0, waitTime := 0,
    enteredAt := 1, seatedAt := -1 }

/-- A one-row aircraft with zero bin capacity holding `walkingBagPS`. -/
def walkingBagSim : Simulation :=
  { aircraft := Aircraft.create 1 6 3 0, currentStep := 2, isComplete := false,
    events := [], passengerStates := [walkingBagPS], queue := [] }

/-- C1: in the one-row six-column scenario with P1 at (1, A), P2 at (1, D),
no carry-ons and boarding order [P1, P2], the simulator produces exactly
the specified trace — P1 admitted to cell 0 at tick 1; P1 at cell 1 and P2
admitted at tick 2; P1 in SEATING and P2 blocked at tick 3; P1 seated and
P2 at cell 1 at tick 4; P2 in SEATING at tick 5; P2 seated at tick 6 — and
the completion flag becomes true at step count exactly 6. -/
theorem scenario_trace_six_ticks :
    statesAndRows (scenarioSim.stepN 1) =
      [(PassengerState.walking, 0), (PassengerState.waiting, -1)] ∧
    statesAndRows (scenarioSim.stepN 2) =
      [(PassengerState.walking, 1), (PassengerState.walking, 0)] ∧
    statesAndRows (scenarioSim.stepN 3) =
      [(PassengerState.seating, 1), (PassengerState.walking, 0)] ∧
    statesAndRows (scenarioSim.stepN 4) =
      [(PassengerState.seated, 1), (PassengerState.walking, 1)] ∧
    statesAndRows (scenarioSim.stepN 5) =
      [(PassengerState.seated, 1), (PassengerState.seating, 1)] ∧
    statesAndRows (scenarioSim.stepN 6) =
      [(PassengerState.seated, 1), (PassengerState.seated, 1)] ∧
    (scenarioSim.stepN 6).events =
      [{ step := 1, type := EventType.enter, passengerId := 1, passengerRow := 1,
         passengerColumn := 0, data := EventData.noData },
       { step := 2, type := EventType.move, passengerId := 1, passengerRow := 1,
         passengerColumn := 0, data := EventData.moved 0 1 },
       { step := 2, type := EventType.enter, passengerId := 2, passengerRow := 1,
         passengerColumn := 3, data := EventData.noData },
       { step := 3, type := EventType.aisleBlocked, passengerId := 2,
         passengerRow := 1, passengerColumn := 3, data := EventData.blockedAt 0 1 },
       { step := 4, type := EventType.seat, passengerId := 1, passengerRow := 1,
         passengerColumn := 0, data := EventData.seatPos 1 0 },
       { step := 4, type := EventType.move, passengerId := 2, passengerRow := 1,
         passengerColumn := 3, data := EventData.moved 0 1 },
       { step := 6, type := EventType.seat, passengerId := 2, passengerRow := 1,
         passengerColumn := 3, data := EventData.seatPos 1 3 }] ∧
    (scenarioSim.stepN 5).isComplete = false ∧
    (scenarioSim.stepN 6).isComplete = true ∧
    (scenarioSim.stepN 6).currentStep = 6 ∧
    (scenarioSim.runToCompletion 10000).currentStep = 6 ∧
    (scenarioSim.runToCompletion 10000).isComplete = true := by
  decide

/-! ### Stable-sort lemmas -/

theorem stableInsert_perm {α} (after : α → α → Bool) (x : α) (l : List α) :
    (stableInsert after x l).Perm (x :: l) := by
  induction l with
  | nil => exact List.Perm.refl _
  | cons y ys ih =>
    unfold stableInsert
    by_cases h : after x y = true
    · simp only [h, if_true]
      exact (List.Perm.cons y ih).trans (List.Perm.swap x y ys)
    · simp [h]

theorem stableSort_go_perm {α} (after : α → α → Bool) (l acc : List α) :
    (l.foldl (fun acc x => stableInsert after x acc) acc).Perm (acc ++ l) := by
  induction l generalizing acc with
  | nil => simp
  | cons x xs ih =>
    refine (ih (stableInsert after x acc)).trans ?_
    refine (List.Perm.append_right xs (stableInsert_perm after x acc)).trans ?_
    exact (@List.perm_middle _ x acc xs).symm

theorem stableSort_perm {α} (after : α → α → Bool) (l : List α) :
    (stableSort after l).Perm l := by
  simpa [stableSort] using stableSort_go_perm after l []

theorem stableInsert_pairwise {α} (after : α → α → Bool) (P : α → α → Prop)
    (h1 : ∀ x y, after x y = true → P y x)
    (h2 : ∀ x y, after x y = false → P x y)
    (htrans : ∀ x y z, after x y = false → P y z → P x z)
    (x : α) (l : List α) (hl : l.Pairwise P) :
    (stableInsert after x l).Pairwise P := by
  induction l with
  | nil => simp [stableInsert]
  | cons y ys ih =>
    rcases List.pairwise_cons.mp hl with ⟨hy, hys⟩
    unfold stableInsert
    by_cases h : after x y = true
    · simp only [h, if_true]
      refine List.pairwise_cons.mpr ⟨?_, ih hys⟩
      intro z hz
      rcases List.mem_cons.mp ((stableInsert_perm after x ys).mem_iff.mp hz) with
        hxz | hyz
      · exact hxz ▸ h1 x y h
      · exact hy z hyz
    · have hf : after x y = false := by simpa using h
      simp only [hf, Bool.false_eq_true, if_false]
      refine List.pairwise_cons.mpr ⟨?_, hl⟩
      intro z hz
      rcases List.mem_cons.mp hz with hzy | hzys
      · exact hzy ▸ h2 x y hf
      · exact htrans x y z hf (hy z hzys)

theorem stableSort_pairwise {α} (after : α → α → Bool) (P : α → α → Prop)
    (h1 : ∀ x y, after x y = true → P y x)
    (h2 : ∀ x y, after x y = false → P x y)
    (htrans : ∀ x y z, after x y = false → P y z → P x z)
    (l : List α) : (stableSort after l).Pairwise P := by
  suffices h : ∀ acc, acc.Pairwise P →
      (l.foldl (fun acc x => stableInsert after x acc) acc).Pairwise P by
    exact h [] (List.Pairwise.nil)
  induction l with
  | nil => intro acc hacc; simpa using hacc
  | cons x xs ih =>
    intro acc hacc
    exact ih _ (stableInsert_pairwise after P h1 h2 htrans x acc hacc)

theorem insertPriority_pairwise (x : Nat × ℚ) (acc : List (Nat × ℚ))
    (hacc : acc.Pairwise fun a b => b.2 ≤ a.2 ∧ (b.2 = a.2 → a.1 < b.1))
    (hlt : ∀ y ∈ acc, y.1 < x.1) :
    (stableInsert (fun x y => decide (x.2 ≤ y.2)) x acc).Pairwise
      fun a b => b.2 ≤ a.2 ∧ (b.2 = a.2 → a.1 < b.1) := by
  induction acc with
  | nil => simp [stableInsert]
  | cons y ys ih =>
    rcases List.pairwise_cons.mp hacc with ⟨hy, hys⟩
    unfold stableInsert
    by_cases h : x.2 ≤ y.2
    · rw [if_pos (by simpa using h)]
      refine List.pairwise_cons.mpr
        ⟨?_, ih hys (fun z hz => hlt z (List.mem_cons_of_mem y hz))⟩
      intro z hz
      rcases List.mem_cons.mp
          ((stableInsert_perm _ x ys).mem_iff.mp hz) with rfl | hzys
      · exact ⟨h, fun _ => hlt y (List.mem_cons_self y ys)⟩
      · exact hy z hzys
    · rw [if_neg (by simpa using h)]
      have hyx : y.2 < x.2 := lt_of_not_le h
      refine List.pairwise_cons.mpr ⟨?_, hacc⟩
      intro z hz
      rcases List.mem_cons.mp hz with rfl | hzys
      · exact ⟨le_of_lt hyx, fun heq => absurd heq (ne_of_lt hyx)⟩
      · refine ⟨le_of_lt (lt_of_le_of_lt (hy z hzys).1 hyx), fun heq => ?_⟩
        exact absurd heq (ne_of_lt (lt_of_le_of_lt (hy z hzys).1 hyx))

theorem sortPriority_go (l : List (Nat × ℚ)) :
    ∀ acc : List (Nat × ℚ),
      acc.Pairwise (fun a b => b.2 ≤ a.2 ∧ (b.2 = a.2 → a.1 < b.1)) →
      (∀ y ∈ acc, ∀ x ∈ l, y.1 < x.1) →
      l.Pairwise (fun a b => a.1 < b.1) →
      (l.foldl (fun acc x =>
        stableInsert (fun x y => decide (x.2 ≤ y.2)) x acc) acc).Pairwise
        (fun a b => b.2 ≤ a.2 ∧ (b.2 = a.2 → a.1 < b.1)) := by
  induction l with
  | nil => intro acc hacc _ _; simpa using hacc
  | cons x xs ih =>
    intro acc hacc hcross hl
    rcases List.pairwise_cons.mp hl with ⟨hx, hxs⟩
    refine ih _ (insertPriority_pairwise x acc hacc
      (fun y hy => hcross y hy x (List.mem_cons_self x xs))) ?_ hxs
    intro y hy z hz
    rcases List.mem_cons.mp
        ((stableInsert_perm _ x acc).mem_iff.mp hy) with rfl | hyacc
    · exact hx z hz
    · exact hcross y hyacc z (List.mem_cons_of_mem x hz)

/-- C3: for a passenger list with strictly increasing ids (ids are
assigned 1..N in generation order) and any priority function, the boarding
order `runAlgorithm` derives is the id projection of a permutation of the
`(id, priority)` pairs that is sorted descending by priority with ties in
ascending id order, and that ordered pair list is the unique such
permutation. -/
theorem boarding_order_desc_priority_ties_asc_id (f : Passenger → ℚ)
    (passengers : List Passenger)
    (hids : passengers.Pairwise fun p q => p.id < q.id) :
    runAlgorithm f passengers =
      (sortPriorityDesc (withPriority f passengers)).map Prod.fst ∧
    (sortPriorityDesc (withPriority f passengers)).Perm
      (withPriority f passengers) ∧
    (sortPriorityDesc (withPriority f passengers)).Pairwise
      (fun a b => b.2 ≤ a.2 ∧ (b.2 = a.2 → a.1 < b.1)) ∧
    (∀ l' : List (Nat × ℚ), l'.Perm (withPriority f passengers) →
      l'.Pairwise (fun a b => b.2 ≤ a.2 ∧ (b.2 = a.2 → a.1 < b.1)) →
      l' = sortPriorityDesc (withPriority f passengers)) := by
  have hpairs : (withPriority f passengers).Pairwise fun a b => a.1 < b.1 := by
    unfold withPriority
    exact List.pairwise_map.mpr (by simpa using hids)
  have hsorted : (sortPriorityDesc (withPriority f passengers)).Pairwise
      (fun a b => b.2 ≤ a.2 ∧ (b.2 = a.2 → a.1 < b.1)) := by
    unfold sortPriorityDesc stableSort
    exact sortPriority_go _ _ List.Pairwise.nil (by simp) hpairs
  have hperm : (sortPriorityDesc (withPriority f passengers)).Perm
      (withPriority f passengers) := stableSort_perm _ _
  refine ⟨rfl, hperm, hsorted, ?_⟩
  intro l' hl'perm hl'sorted
  haveI : IsAntisymm (Nat × ℚ)
      (fun a b => b.2 ≤ a.2 ∧ (b.2 = a.2 → a.1 < b.1)) := by
    constructor
    intro a b hab hba
    have h2 : a.2 = b.2 := le_antisymm hba.1 hab.1
    exact absurd (hba.2 h2) (not_lt_of_lt (hab.2 h2.symm))
  exact List.eq_of_perm_of_sorted (hl'perm.trans hperm.symm) hl'sorted hsorted

/-- C4: the RNG advances by `seed' = (48271 * seed) mod (2^31 - 1)`,
`next()` returns `seed' / (2^31 - 1)`, which lies in [0,1); the first draw
from seed 12345 is exactly `595905495 / 2147483647`; `reset()` restores
the initial seed, after which the next draw repeats the same value. -/
theorem rng_minstd_recurrence_and_first_draw :
    (∀ g : RandomGenerator,
      (g.next).1.seed = (48271 * g.seed) % (2 ^ 31 - 1) ∧
      (g.next).2 = (((48271 * g.seed) % (2 ^ 31 - 1) : Nat) : ℚ) / (2 ^ 31 - 1 : ℚ) ∧
      0 ≤ (g.next).2 ∧ (g.next).2 < 1) ∧
    ((RandomGenerator.create 12345).next).2 = (595905495 : ℚ) / 2147483647 ∧
    (∀ g : RandomGenerator, (g.reset).seed = g.initialSeed) ∧
    ((((RandomGenerator.create 12345).next).1.reset).next).2 =
      (595905495 : ℚ) / 2147483647 := by
  have hmq : (0 : ℚ) < ((lcgModulus : Nat) : ℚ) := by norm_num [lcgModulus]
  refine ⟨fun g => ⟨?_, ?_, ?_, ?_⟩, ?_, fun g => rfl, ?_⟩
  · show (48271 * g.seed) % lcgModulus = (48271 * g.seed) % (2 ^ 31 - 1)
    norm_num [lcgModulus]
  · show (((48271 * g.seed) % lcgModulus : Nat) : ℚ) / ((lcgModulus : Nat) : ℚ) = _
    norm_num [lcgModulus]
  · exact div_nonneg (by positivity) (le_of_lt hmq)
  · show (((48271 * g.seed) % lcgModulus : Nat) : ℚ) / ((lcgModulus : Nat) : ℚ) < 1
    rw [div_lt_one hmq]
    exact_mod_cast Nat.mod_lt _ (by norm_num [lcgModulus])
  · norm_num [RandomGenerator.next, RandomGenerator.create, lcgModulus]
  · norm_num [RandomGenerator.next, RandomGenerator.create, RandomGenerator.reset,
      lcgModulus]

/-! ### Aircraft bin-capacity lemmas -/

theorem useBinCapacity_spec (a : Aircraft) (r : Nat) (sz : CarryOnSize) :
    (a.useBinCapacity r sz = (a, true) ∧ sz = CarryOnSize.noBag) ∨
    (∃ current, sz ≠ CarryOnSize.noBag ∧ a.binCapAt? r = Option.some current ∧
      requiredUnits sz ≤ current ∧
      a.useBinCapacity r sz =
        ({ a with binCapacity :=
            a.binCapacity.set (r - 1) (current - requiredUnits sz) }, true)) ∨
    (a.useBinCapacity r sz = (a, false) ∧ ¬ a.hasBinCapacity r sz = true) := by
  unfold Aircraft.useBinCapacity Aircraft.hasBinCapacity
  cases sz with
  | noBag => exact Or.inl ⟨rfl, rfl⟩
  | small =>
    cases h : a.binCapAt? r with
    | none => exact Or.inr (Or.inr (by simp [h]))
    | some current =>
      by_cases hle : requiredUnits CarryOnSize.small ≤ current
      · exact Or.inr (Or.inl ⟨current, by simp, rfl, hle, by simp [h, hle]⟩)
      · exact Or.inr (Or.inr (by simp [h, hle]))
  | large =>
    cases h : a.binCapAt? r with
    | none => exact Or.inr (Or.inr (by simp [h]))
    | some current =>
      by_cases hle : requiredUnits CarryOnSize.large ≤ current
      · exact Or.inr (Or.inl ⟨current, by simp, rfl, hle, by simp [h, hle]⟩)
      · exact Or.inr (Or.inr (by simp [h, hle]))

theorem applyOp_rows_perRow (a : Aircraft) (op : LayoutOp) :
    (applyOp a op).rows = a.rows ∧
    (applyOp a op).binCapacityPerRow = a.binCapacityPerRow := by
  cases op with
  | consume row sz =>
    rcases useBinCapacity_spec a row sz with ⟨h, _⟩ | ⟨c, _, _, _, h⟩ | ⟨h, _⟩ <;>
      simp [applyOp, h]
  | seatP p => exact ⟨rfl, rfl⟩
  | place pid row => exact ⟨rfl, rfl⟩
  | remove row => exact ⟨rfl, rfl⟩
  | reset => exact ⟨rfl, rfl⟩

theorem applyOps_rows_perRow (a : Aircraft) (ops : List LayoutOp) :
    (applyOps a ops).rows = a.rows ∧
    (applyOps a ops).binCapacityPerRow = a.binCapacityPerRow := by
  induction ops generalizing a with
  | nil => exact ⟨rfl, rfl⟩
  | cons op rest ih =>
    have h1 := applyOp_rows_perRow a op
    have h2 := ih (applyOp a op)
    exact ⟨h2.1.trans h1.1, h2.2.trans h1.2⟩

theorem requiredUnits_nonneg (sz : CarryOnSize) : 0 ≤ requiredUnits sz := by
  unfold requiredUnits
  split <;> norm_num

theorem applyOp_binCap_nonneg (a : Aircraft) (op : LayoutOp)
    (h : ∀ x ∈ a.binCapacity, 0 ≤ x) (hper : 0 ≤ a.binCapacityPerRow) :
    ∀ x ∈ (applyOp a op).binCapacity, 0 ≤ x := by
  cases op with
  | consume row sz =>
    rcases useBinCapacity_spec a row sz with ⟨hs, _⟩ | ⟨c, _, hc, hle, hs⟩ | ⟨hs, _⟩
    · simpa [applyOp, hs] using h
    · intro x hx
      simp only [applyOp, hs] at hx
      rcases List.mem_or_eq_of_mem_set hx with hx' | hx'
      · exact h x hx'
      · simpa [hx'] using sub_nonneg.mpr hle
    · simpa [applyOp, hs] using h
  | seatP p => simpa [applyOp, Aircraft.seatPassenger] using h
  | place pid row => simpa [applyOp, Aircraft.placeInAisle] using h
  | remove row => simpa [applyOp, Aircraft.removeFromAisle] using h
  | reset =>
    intro x hx
    simp only [applyOp, Aircraft.reset] at hx
    simpa [List.eq_of_mem_replicate hx] using hper

theorem applyOps_binCap_nonneg (a : Aircraft) (ops : List LayoutOp)
    (h : ∀ x ∈ a.binCapacity, 0 ≤ x) (hper : 0 ≤ a.binCapacityPerRow) :
    ∀ x ∈ (applyOps a ops).binCapacity, 0 ≤ x := by
  induction ops generalizing a with
  | nil => exact h
  | cons op rest ih =>
    exact ih (applyOp a op) (applyOp_binCap_nonneg a op h hper)
      ((applyOp_rows_perRow a op).2.symm ▸ hper)

/-- C6: along any operation sequence from a configured aircraft with a
nonnegative configured capacity, per-row bin capacity never becomes
negative; a non-reset operation never increases any row's capacity; reset
restores every row to the configured default; and `useBinCapacity` with
insufficient capacity returns false and leaves the aircraft unchanged. -/
theorem bin_capacity_nonneg_monotone_reset (rows numCols ap : Nat) (perRow : Int)
    (hper : 0 ≤ perRow) (a0 : Aircraft)
    (h0 : a0 = Aircraft.create rows numCols ap perRow) :
    (∀ ops : List LayoutOp, ∀ x ∈ (applyOps a0 ops).binCapacity, 0 ≤ x) ∧
    (∀ (ops : List LayoutOp) (op : LayoutOp), op ≠ LayoutOp.reset →
      ∀ (i : Nat) (c c' : Int),
        (applyOps a0 ops).binCapacity.get? i = Option.some c →
        (applyOp (applyOps a0 ops) op).binCapacity.get? i = Option.some c' →
        c' ≤ c) ∧
    (∀ ops : List LayoutOp,
      (applyOp (applyOps a0 ops) LayoutOp.reset).binCapacity =
        List.replicate rows perRow) ∧
    (∀ (ops : List LayoutOp) (r : Nat) (sz : CarryOnSize),
      ¬ (applyOps a0 ops).hasBinCapacity r sz = true →
      ((applyOps a0 ops).useBinCapacity r sz).2 = false ∧
      ((applyOps a0 ops).useBinCapacity r sz).1 = applyOps a0 ops) := by
  subst h0
  refine ⟨?_, ?_, ?_, ?_⟩
  · intro ops
    refine applyOps_binCap_nonneg _ ops ?_ hper
    intro x hx
    simpa [List.eq_of_mem_replicate (by simpa [Aircraft.create] using hx)] using hper
  · intro ops op hop i c c' h1 h2
    set A := applyOps (Aircraft.create rows numCols ap perRow) ops with hA
    cases op with
    | consume row sz =>
      rcases useBinCapacity_spec A row sz with ⟨hs, _⟩ | ⟨cur, _, hc, hle, hs⟩ | ⟨hs, _⟩
      · simp only [applyOp, hs] at h2
        simp only [h1] at h2
        exact le_of_eq (Option.some.inj h2).symm
      · simp only [applyOp, hs] at h2
        have hrow : A.binCapacity.get? (row - 1) = Option.some cur := by
          unfold Aircraft.binCapAt? at hc
          by_cases h1r : 1 ≤ row
          · simpa [h1r] using hc
          · simp [h1r] at hc
        by_cases hi : row - 1 = i
        · subst hi
          rw [List.get?_set_eq, hrow] at h2
          have hcc : c = cur := by
            rw [hrow] at h1
            exact (Option.some.inj h1).symm
          have hcc' : c' = cur - requiredUnits sz := by
            simpa using h2.symm
          rw [hcc, hcc']
          have := requiredUnits_nonneg sz
          omega
        · rw [List.get?_set_ne _ _ hi, h1] at h2
          exact le_of_eq (Option.some.inj h2).symm
      · simp only [applyOp, hs] at h2
        simp only [h1] at h2
        exact le_of_eq (Option.some.inj h2).symm
    | seatP p =>
      simp only [applyOp, Aircraft.seatPassenger] at h2
      simp only [h1] at h2
      exact le_of_eq (Option.some.inj h2).symm
    | place pid row =>
      simp only [applyOp, Aircraft.placeInAisle] at h2
      simp only [h1] at h2
      exact le_of_eq (Option.some.inj h2).symm
    | remove row =>
      simp only [applyOp, Aircraft.removeFromAisle] at h2
      simp only [h1] at h2
      exact le_of_eq (Option.some.inj h2).symm
    | reset => exact absurd rfl hop
  · intro ops
    have h := applyOps_rows_perRow (Aircraft.create rows numCols ap perRow) ops
    show List.replicate (applyOps _ ops).rows (applyOps _ ops).binCapacityPerRow = _
    rw [h.1, h.2]
    rfl
  · intro ops r sz hcap
    rcases useBinCapacity_spec (applyOps (Aircraft.create rows numCols ap perRow) ops)
        r sz with ⟨hs, hnone⟩ | ⟨cur, _, hc, hle, hs⟩ | ⟨hs, _⟩
    · exact absurd (by simp [Aircraft.hasBinCapacity, hnone]) hcap
    · exact absurd (by
        unfold Aircraft.hasBinCapacity
        cases sz <;> simp_all) hcap
    · exact ⟨by simp [hs], by simp [hs]⟩

/-! ### Contract validation -/

theorem collectErrors_ne_nil (f : Passenger → JSValue) :
    ∀ sample : List Passenger, (∃ p ∈ sample, isFiniteNum (f p) = false) →
      collectErrors f sample ≠ [] := by
  intro sample
  induction sample with
  | nil => rintro ⟨p, hp, _⟩; simp at hp
  | cons q rest ih =>
    rintro ⟨p, hp, hbad⟩
    unfold collectErrors
    cases hq : f q with
    | num x =>
      rcases List.mem_cons.mp hp with rfl | hprest
      · rw [hq] at hbad
        simp [isFiniteNum] at hbad
      · exact ih ⟨p, hprest, hbad⟩
    | nan => simp
    | posInf => simp
    | negInf => simp
    | nonNumber t => simp
    | thrown m => simp

/-- C8: if the priority function yields a non-finite, non-numeric or
thrown outcome on any passenger of the validation sample, then
`validateAlgorithm` reports a failure (`isValid = false`, with at least
one error message); thrown exceptions are converted into this structured
failure rather than propagated, and `validateAlgorithm` never invokes the
simulator. -/
theorem validate_rejects_nonfinite (f : Passenger → JSValue)
    (sample : List Passenger)
    (h : ∃ p ∈ sample, isFiniteNum (f p) = false) :
    (validateAlgorithm f sample).isValid = false ∧
    (validateAlgorithm f sample).errors ≠ [] := by
  have herr := collectErrors_ne_nil f sample h
  rcases List.exists_cons_of_ne_nil herr with ⟨x, xs, hxe⟩
  simp only [validateAlgorithm, hxe]
  simp

/-! ### Passenger-generation lengths -/

theorem genPassengerList_length (l : List (Nat × Nat)) :
    ∀ (g : RandomGenerator) (i : Nat),
      (genPassengerList g i l).2.length = l.length := by
  induction l with
  | nil => intro g i; rfl
  | cons s r ih =>
    intro g i
    show ((genPassengerList (genOnePassenger g i s).1 (i + 1) r).2.length + 1) =
      r.length + 1
    rw [ih]

theorem listSwap_length {α} (l : List α) (i j : Nat) :
    (listSwap l i j).length = l.length := by
  unfold listSwap
  cases l.get? i <;> cases l.get? j <;> simp

theorem shuffleGo_length {α} (n : Nat) :
    ∀ (g : RandomGenerator) (l : List α),
      ((RandomGenerator.shuffleGo g l n).2).length = l.length := by
  induction n with
  | zero => intro g l; rfl
  | succ n ih =>
    intro g l
    show ((RandomGenerator.shuffleGo _ (listSwap l (n + 1) _) n).2).length = l.length
    rw [ih, listSwap_length]

theorem allSeats_length (rows numCols : Nat) :
    (allSeats rows numCols).length = rows * numCols := by
  unfold allSeats
  rw [List.length_flatMap]
  have h : (List.length ∘ fun r => List.map (fun c => (r + 1, c)) (List.range numCols)) =
      fun _ : Nat => numCols := by
    funext r
    simp
  rw [h, List.map_const', List.sum_replicate, List.length_range, smul_eq_mul]

theorem generatePassengers_length (count rows numCols : Nat) (g : RandomGenerator) :
    (generatePassengers count rows numCols g).2.length =
      min count (rows * numCols) := by
  show (genPassengerList _ 0 (((g.shuffle (allSeats rows numCols)).2).take count)).2.length = _
  rw [genPassengerList_length, List.length_take]
  show min count ((RandomGenerator.shuffleGo _ _ _).2).length = _
  rw [shuffleGo_length, allSeats_length]

/-! ### Optimizer fitness -/

/-- C9: the fitness of a genome is the average completion-step count over
exactly the three seeded scenarios (seeds 12345, 12346, 12347 — pairwise
distinct — same passenger count and the optimizer's layout); the value is
a pure function of the layout configuration (any mutable aircraft state —
bins, seats, aisle — left by earlier evaluations is irrelevant, because
each scenario run constructs a fresh simulator which resets the aircraft,
and the pre-generated passenger sets are immutable and equal to freshly
generated ones); and a lower fitness sorts first in the
fitness-ascending ranking the optimizer selects from. -/
theorem optimizer_fitness_three_scenarios (f : Passenger → ℚ) (a : Aircraft) :
    evaluateFitness f a (optimizerScenarios a) =
      ((fitnessScenarioSteps f a (optimizerScenario a 0) : ℚ) +
        (fitnessScenarioSteps f a (optimizerScenario a 1) : ℚ) +
        (fitnessScenarioSteps f a (optimizerScenario a 2) : ℚ)) / 3 ∧
    (∀ a' : Aircraft, a'.rows = a.rows → a'.numCols = a.numCols →
      a'.aislePosition = a.aislePosition →
      a'.binCapacityPerRow = a.binCapacityPerRow →
      evaluateFitness f a' (optimizerScenarios a') =
        evaluateFitness f a (optimizerScenarios a)) ∧
    ((RandomGenerator.create (12345 + 0)).seed ≠
        (RandomGenerator.create (12345 + 1)).seed ∧
      (RandomGenerator.create (12345 + 1)).seed ≠
        (RandomGenerator.create (12345 + 2)).seed ∧
      (RandomGenerator.create (12345 + 0)).seed ≠
        (RandomGenerator.create (12345 + 2)).seed) ∧
    ((optimizerScenario a 0).length = (optimizerScenario a 1).length ∧
      (optimizerScenario a 1).length = (optimizerScenario a 2).length) ∧
    (∀ (pop : List (ℚ × ℚ)) (hd : ℚ × ℚ) (tl : List (ℚ × ℚ)),
      sortFitnessAsc pop = hd :: tl → ∀ x ∈ pop, hd.2 ≤ x.2) := by
  refine ⟨?_, ?_, ⟨by decide, by decide, by decide⟩, ⟨?_, ?_⟩, ?_⟩
  · simp only [evaluateFitness, optimizerScenarios, List.map_cons, List.map_nil,
      List.sum_cons, List.sum_nil, List.length_cons, List.length_nil]
    ring
  · intro a' h1 h2 h3 h4
    have hreset : a'.reset = a.reset := by
      simp only [Aircraft.reset, h1, h2, h3, h4]
    have hscen : ∀ i, optimizerScenario a' i = optimizerScenario a i := by
      intro i
      simp only [optimizerScenario, h1, h2]
    have hfit : ∀ ps, fitnessScenarioSteps f a' ps = fitnessScenarioSteps f a ps := by
      intro ps
      simp only [fitnessScenarioSteps, Simulation.init, hreset]
    simp only [evaluateFitness, optimizerScenarios, hscen, hfit]
  · rw [show optimizerScenario a 0 =
        (generatePassengers 114 a.rows a.numCols (RandomGenerator.create 12345)).2 from rfl,
      show optimizerScenario a 1 =
        (generatePassengers 114 a.rows a.numCols (RandomGenerator.create 12346)).2 from rfl]
    rw [generatePassengers_length, generatePassengers_length]
  · rw [show optimizerScenario a 1 =
        (generatePassengers 114 a.rows a.numCols (RandomGenerator.create 12346)).2 from rfl,
      show optimizerScenario a 2 =
        (generatePassengers 114 a.rows a.numCols (RandomGenerator.create 12347)).2 from rfl]
    rw [generatePassengers_length, generatePassengers_length]
  · intro pop hd tl hsort x hx
    have hpw : (sortFitnessAsc pop).Pairwise fun u v => u.2 ≤ v.2 := by
      refine stableSort_pairwise _ _ ?_ ?_ ?_ pop
      · intro u v h
        exact of_decide_eq_true h
      · intro u v h
        exact le_of_lt (lt_of_not_le (of_decide_eq_false h))
      · intro u v w h hvw
        exact le_trans (le_of_lt (lt_of_not_le (of_decide_eq_false h))) hvw
    have hmem : x ∈ hd :: tl := by
      rw [← hsort]
      exact ((stableSort_perm _ pop).symm).mem_iff.mp hx
    rcases List.mem_cons.mp hmem with rfl | htl
    · exact le_refl _
    · rw [hsort] at hpw
      exact (List.pairwise_cons.mp hpw).1 x htl

/-! ### Run-state bookkeeping lemmas -/

theorem findPS_eq_some {l : List PState} {pid : Nat} {ps : PState}
    (h : findPS l pid = Option.some ps) : ps ∈ l ∧ ps.passenger.id = pid := by
  unfold findPS at h
  exact ⟨List.mem_of_find?_eq_some h, by simpa using List.find?_some h⟩

theorem findPS_eq_some_of_mem {l : List PState} {pid : Nat} {ps : PState}
    (hnd : (l.map fun q => q.passenger.id).Nodup)
    (hmem : ps ∈ l) (hid : ps.passenger.id = pid) :
    findPS l pid = Option.some ps := by
  induction l with
  | nil => cases hmem
  | cons x xs ih =>
    rcases List.mem_cons.mp hmem with rfl | hmem'
    · unfold findPS
      simp [hid]
    · have hx : x.passenger.id ≠ pid := by
        intro hxp
        have hmm : ps.passenger.id ∈ xs.map fun q => q.passenger.id :=
          List.mem_map_of_mem _ hmem'
        rw [List.map_cons, List.nodup_cons] at hnd
        have hxps : x.passenger.id = ps.passenger.id := by rw [hxp, hid]
        exact hnd.1 (by rw [hxps]; exact hmm)
      unfold findPS
      rw [List.find?_cons_of_neg _ (by simpa using hx)]
      exact ih (by rw [List.map_cons, List.nodup_cons] at hnd; exact hnd.2) hmem'

theorem uniq_of_nodup_ids {l : List PState}
    (hnd : (l.map fun q => q.passenger.id).Nodup)
    {a b : PState} (ha : a ∈ l) (hb : b ∈ l)
    (hid : a.passenger.id = b.passenger.id) : a = b :=
  List.inj_on_of_nodup_map hnd ha hb hid

theorem updatePS_map_comp {β} (l : List PState) (pid : Nat) (f : PState → PState)
    (g : PState → β) (hg : ∀ q ∈ l, q.passenger.id = pid → g (f q) = g q) :
    (updatePS l pid f).map g = l.map g := by
  unfold updatePS
  rw [List.map_map]
  refine List.map_congr_left ?_
  intro q hq
  by_cases hid : q.passenger.id = pid
  · simp [Function.comp, hid, hg q hq hid]
  · simp [Function.comp, hid]

theorem mem_updatePS {l : List PState} {pid : Nat} {f : PState → PState} {q' : PState}
    (h : q' ∈ updatePS l pid f) :
    ∃ q ∈ l, q' = if q.passenger.id = pid then f q else q := by
  unfold updatePS at h
  rcases List.mem_map.mp h with ⟨q, hq, hq'⟩
  exact ⟨q, hq, hq'.symm⟩

theorem updatePS_mem_of_mem {l : List PState} {pid : Nat} {f : PState → PState}
    {q : PState} (hq : q ∈ l) :
    (if q.passenger.id = pid then f q else q) ∈ updatePS l pid f := by
  unfold updatePS
  exact List.mem_map_of_mem _ hq

theorem findPS_updatePS_self (l : List PState) (pid : Nat) (f : PState → PState)
    (hf : ∀ q, (f q).passenger = q.passenger) :
    findPS (updatePS l pid f) pid = (findPS l pid).map f := by
  induction l with
  | nil => rfl
  | cons x xs ih =>
    unfold updatePS findPS at *
    by_cases hx : x.passenger.id = pid
    · simp [hx, hf]
    · simp only [List.map_cons, hx, if_false]
      rw [List.find?_cons_of_neg _ (by simpa using hx),
        List.find?_cons_of_neg _ (by simpa using hx)]
      exact ih

theorem findPS_updatePS_ne (l : List PState) (pid pid' : Nat) (f : PState → PState)
    (hf : ∀ q, (f q).passenger = q.passenger) (hne : pid ≠ pid') :
    findPS (updatePS l pid' f) pid = findPS l pid := by
  induction l with
  | nil => rfl
  | cons x xs ih =>
    unfold updatePS findPS at *
    by_cases hx : x.passenger.id = pid'
    · have hfx : (f x).passenger.id ≠ pid := by
        rw [hf, hx]
        exact fun h => hne h.symm
      have hxnp : x.passenger.id ≠ pid := by
        rw [hx]
        exact fun h => hne h.symm
      rw [List.map_cons, if_pos hx,
        List.find?_cons_of_neg _ (by simpa using hfx),
        List.find?_cons_of_neg _ (by simpa using hxnp)]
      exact ih
    · rw [List.map_cons, if_neg hx]
      by_cases hxp : x.passenger.id = pid
      · rw [List.find?_cons_of_pos _ (by simpa using hxp),
          List.find?_cons_of_pos _ (by simpa using hxp)]
      · rw [List.find?_cons_of_neg _ (by simpa using hxp),
          List.find?_cons_of_neg _ (by simpa using hxp)]
        exact ih

/-! ### Invariant preservation -/

theorem Inv_recordEvent (s : Simulation) (t : EventType) (p : Passenger)
    (d : EventData) : Inv (s.recordEvent t p d) ↔ Inv s := Iff.rfl

theorem Inv_aircraft_swap (s : Simulation) (a' : Aircraft)
    (hrows : a'.rows = s.aircraft.rows) (haisle : a'.aisle = s.aircraft.aisle)
    (h : Inv s) : Inv { s with aircraft := a' } := by
  obtain ⟨h1, h2, h3, h4, h5, h6, h7⟩ := h
  refine ⟨h1, ?_, ?_, ?_, h5, h6, h7⟩
  · show a'.aisle.length = a'.rows + 1
    rw [hrows, haisle]
    exact h2
  · intro q hq hin
    have := h3 q hq hin
    show 0 ≤ q.aisleRow ∧ q.aisleRow ≤ (a'.rows : Int) ∧
      a'.aisle.get? q.aisleRow.toNat = Option.some (Option.some q.passenger.id)
    rw [hrows, haisle]
    exact this
  · intro r hr
    show cellBacked s.passengerStates r (a'.aisle.getD r Option.none)
    rw [haisle]
    exact h4 r (by rw [haisle] at hr; exact hr)

theorem Inv_updatePS (s : Simulation) (pid : Nat) (ps : PState) (f : PState → PState)
    (hfind : findPS s.passengerStates pid = Option.some ps)
    (hf1 : (f ps).passenger = ps.passenger)
    (hf2 : (f ps).aisleRow = ps.aisleRow)
    (hf3 : isInAisleStateB (f ps).state = isInAisleStateB ps.state)
    (hf4 : (f ps).state = PassengerState.waiting ↔ ps.state = PassengerState.waiting)
    (h : Inv s) :
    Inv { s with passengerStates := updatePS s.passengerStates pid f } := by
  obtain ⟨h1, h2, h3, h4, h5, h6, h7⟩ := h
  obtain ⟨hpsmem, hpsid⟩ := findPS_eq_some hfind
  have huniq : ∀ q ∈ s.passengerStates, q.passenger.id = pid → q = ps := fun q hq hqid =>
    uniq_of_nodup_ids h1 hq hpsmem (by rw [hqid, hpsid])
  have hfpsmem : f ps ∈ updatePS s.passengerStates pid f := by
    have := @updatePS_mem_of_mem _ pid f _ hpsmem
    rwa [if_pos hpsid] at this
  have hmapid : (updatePS s.passengerStates pid f).map (fun q => q.passenger.id) =
      s.passengerStates.map (fun q => q.passenger.id) := by
    refine updatePS_map_comp _ _ _ _ ?_
    intro q hq hqid
    rw [huniq q hq hqid, hf1]
  refine ⟨by rw [hmapid]; exact h1, h2, ?_, ?_, ?_, h6, ?_⟩
  · intro q' hq' hin'
    rcases mem_updatePS hq' with ⟨q, hq, hq'eq⟩
    by_cases hid : q.passenger.id = pid
    · have hqps := huniq q hq hid
      rw [hqps, if_pos hpsid] at hq'eq
      subst hq'eq
      rw [hf3] at hin'
      have h3ps := h3 ps hpsmem hin'
      exact ⟨by rw [hf2]; exact h3ps.1, by rw [hf2]; exact h3ps.2.1,
        by rw [hf2, hf1]; exact h3ps.2.2⟩
    · rw [if_neg hid] at hq'eq
      rw [hq'eq] at hin' ⊢
      exact h3 q hq hin'
  · intro r hr
    have h4r := h4 r hr
    show cellBacked (updatePS s.passengerStates pid f) r
      (s.aircraft.aisle.getD r Option.none)
    cases hcell : s.aircraft.aisle.getD r Option.none with
    | none => exact trivial
    | some pid0 =>
      rw [hcell] at h4r
      obtain ⟨q, hq, hqid, hqin, hqrow⟩ := h4r
      by_cases hid : q.passenger.id = pid
      · have hqps := huniq q hq hid
        rw [hqps] at hqid hqin hqrow
        exact ⟨f ps, hfpsmem, by rw [hf1]; exact hqid, by rw [hf3]; exact hqin,
          by rw [hf2]; exact hqrow⟩
      · refine ⟨q, ?_, hqid, hqin, hqrow⟩
        have := @updatePS_mem_of_mem _ pid f _ hq
        rwa [if_neg hid] at this
  · intro pid0 hpid0
    obtain ⟨q, hq, hqid, hqw⟩ := h5 pid0 hpid0
    by_cases hid : q.passenger.id = pid
    · have hqps := huniq q hq hid
      rw [hqps] at hqid hqw
      exact ⟨f ps, hfpsmem, by rw [hf1]; exact hqid, hf4.mpr hqw⟩
    · refine ⟨q, ?_, hqid, hqw⟩
      have := @updatePS_mem_of_mem _ pid f _ hq
      rwa [if_neg hid] at this
  · intro q' hq'
    rcases mem_updatePS hq' with ⟨q, hq, hq'eq⟩
    by_cases hid : q.passenger.id = pid
    · have hqps := huniq q hq hid
      rw [hqps, if_pos hpsid] at hq'eq
      subst hq'eq
      exact ⟨by rw [hf2]; exact (h7 ps hpsmem).1,
        fun hw => by rw [hf2]; exact (h7 ps hpsmem).2 (hf4.mp hw)⟩
    · rw [if_neg hid] at hq'eq
      rw [hq'eq]
      exact h7 q hq

theorem getD_eq_get?_getD {α} (l : List α) (n : Nat) (d : α) :
    l.getD n d = (l.get? n).getD d := by
  induction l generalizing n with
  | nil => cases n <;> rfl
  | cons x xs ih =>
    cases n with
    | zero => rfl
    | succ m => exact ih m

theorem isAisleOccupied_false_get? {a : Aircraft} {r : Nat}
    (h : a.isAisleOccupied r = false) :
    a.aisle.get? r = Option.some Option.none := by
  unfold Aircraft.isAisleOccupied at h
  cases hg : a.aisle.get? r with
  | none => rw [hg] at h; cases h
  | some cell =>
    rw [hg] at h
    cases cell with
    | none => rfl
    | some pid => simp at h

theorem waiting_not_inAisle {ps : PState} (hin : isInAisleStateB ps.state = true)
    (hw : ps.state = PassengerState.waiting) : False := by
  rw [hw] at hin
  simp [isInAisleStateB] at hin

theorem Inv_move (s : Simulation) (pid : Nat) (ps : PState)
    (hfind : findPS s.passengerStates pid = Option.some ps)
    (hin : isInAisleStateB ps.state = true)
    (hguard : ps.aisleRow + 1 ≤ (s.aircraft.rows : Int))
    (hfree : s.aircraft.isAisleOccupied (ps.aisleRow + 1).toNat = false)
    (h : Inv s) :
    Inv { s with
      aircraft := (s.aircraft.removeFromAisle ps.aisleRow.toNat).placeInAisle
        ps.passenger.id (ps.aisleRow + 1).toNat,
      passengerStates := updatePS s.passengerStates pid
        (fun q => { q with aisleRow := ps.aisleRow + 1 }) } := by
  obtain ⟨h1, h2, h3, h4, h5, h6, h7⟩ := h
  obtain ⟨hpsmem, hpsid⟩ := findPS_eq_some hfind
  have huniq : ∀ q ∈ s.passengerStates, q.passenger.id = pid → q = ps := fun q hq hqid =>
    uniq_of_nodup_ids h1 hq hpsmem (by rw [hqid, hpsid])
  obtain ⟨hr0, hrle, hrget⟩ := h3 ps hpsmem hin
  set r : Nat := ps.aisleRow.toNat with hrdef
  set r' : Nat := (ps.aisleRow + 1).toNat with hr'def
  have hri : ps.aisleRow = (r : Int) := by omega
  have hr'i : ps.aisleRow + 1 = (r' : Int) := by omega
  have hrr' : r' = r + 1 := by omega
  have hr'le : (r' : Int) ≤ (s.aircraft.rows : Int) := by omega
  have hr'lt : r' < s.aircraft.aisle.length := by omega
  have hrlt : r < s.aircraft.aisle.length := by omega
  have hrner' : r ≠ r' := by omega
  have hfree' : s.aircraft.aisle.get? r' = Option.some Option.none :=
    isAisleOccupied_false_get? hfree
  have hA : ((s.aircraft.removeFromAisle r).placeInAisle ps.passenger.id r').aisle =
      (s.aircraft.aisle.set r Option.none).set r' (Option.some ps.passenger.id) := rfl
  have hget_r' : ((s.aircraft.aisle.set r Option.none).set r'
      (Option.some ps.passenger.id)).get? r' =
      Option.some (Option.some ps.passenger.id) := by
    rw [List.get?_set_eq, List.get?_set_ne _ _ hrner', hfree']
    rfl
  have hget_r : ((s.aircraft.aisle.set r Option.none).set r'
      (Option.some ps.passenger.id)).get? r = Option.some Option.none := by
    rw [List.get?_set_ne _ _ (fun hh => hrner' hh.symm), List.get?_set_eq, hrget]
    rfl
  have hget_other : ∀ c : Nat, c ≠ r → c ≠ r' →
      ((s.aircraft.aisle.set r Option.none).set r'
        (Option.some ps.passenger.id)).get? c = s.aircraft.aisle.get? c := by
    intro c hc1 hc2
    rw [List.get?_set_ne _ _ (fun hh => hc2 hh.symm),
      List.get?_set_ne _ _ (fun hh => hc1 hh.symm)]
  have hfpsmem : (fun q => { q with aisleRow := ps.aisleRow + 1 }) ps ∈
      updatePS s.passengerStates pid (fun q => { q with aisleRow := ps.aisleRow + 1 }) := by
    have := @updatePS_mem_of_mem _ pid (fun q => { q with aisleRow := ps.aisleRow + 1 }) _ hpsmem
    rwa [if_pos hpsid] at this
  have hmapid : (updatePS s.passengerStates pid
      (fun q => { q with aisleRow := ps.aisleRow + 1 })).map (fun q => q.passenger.id) =
      s.passengerStates.map (fun q => q.passenger.id) :=
    updatePS_map_comp _ _ _ _ (fun q _ _ => rfl)
  refine ⟨by rw [hmapid]; exact h1, ?_, ?_, ?_, ?_, h6, ?_⟩
  · show ((s.aircraft.aisle.set r Option.none).set r'
      (Option.some ps.passenger.id)).length = s.aircraft.rows + 1
    simp [h2]
  · intro q' hq' hin'
    rcases mem_updatePS hq' with ⟨q, hq, hq'eq⟩
    by_cases hid : q.passenger.id = pid
    · rw [huniq q hq hid, if_pos hpsid] at hq'eq
      subst hq'eq
      refine ⟨by simpa using hr0.trans (by omega), by simpa using hguard, ?_⟩
      show ((s.aircraft.aisle.set r Option.none).set r'
        (Option.some ps.passenger.id)).get? (ps.aisleRow + 1).toNat =
        Option.some (Option.some ps.passenger.id)
      exact hget_r'
    · rw [if_neg hid] at hq'eq
      rw [hq'eq] at hin' ⊢
      obtain ⟨hq0, hqle, hqget⟩ := h3 q hq hin'
      refine ⟨hq0, hqle, ?_⟩
      show ((s.aircraft.aisle.set r Option.none).set r'
        (Option.some ps.passenger.id)).get? q.aisleRow.toNat =
        Option.some (Option.some q.passenger.id)
      have hc1 : q.aisleRow.toNat ≠ r := by
        intro hc
        rw [hc, hrget] at hqget
        have hpq : ps.passenger.id = q.passenger.id := by simpa using hqget
        exact hid (hpq ▸ hpsid)
      have hc2 : q.aisleRow.toNat ≠ r' := by
        intro hc
        rw [hc, hfree'] at hqget
        simp at hqget
      rw [hget_other _ hc1 hc2]
      exact hqget
  · intro r0 hr0mem
    rw [List.mem_range] at hr0mem
    have hr0lt : r0 < s.aircraft.aisle.length := by
      simpa [Aircraft.placeInAisle, Aircraft.removeFromAisle] using hr0mem
    show cellBacked _ r0 (((s.aircraft.aisle.set r Option.none).set r'
      (Option.some ps.passenger.id)).getD r0 Option.none)
    rw [getD_eq_get?_getD]
    by_cases hc2 : r0 = r'
    · rw [hc2, hget_r']
      show cellBacked _ r' (Option.some ps.passenger.id)
      exact ⟨_, hfpsmem, rfl, by simpa using hin, hr'i⟩
    · by_cases hc1 : r0 = r
      · rw [hc1, hget_r]
        exact trivial
      · rw [hget_other _ hc1 hc2]
        have h4r := h4 r0 (by rw [List.mem_range]; exact hr0lt)
        rw [getD_eq_get?_getD] at h4r
        cases hcell : s.aircraft.aisle.get? r0 with
        | none => exact trivial
        | some cell =>
          rw [hcell] at h4r
          cases cell with
          | none => exact trivial
          | some pid0 =>
            obtain ⟨q, hq, hqid, hqin, hqrow⟩ := h4r
            have hidne : q.passenger.id ≠ pid := by
              intro hid
              rw [huniq q hq hid] at hqrow
              exact hc1 (by omega)
            refine ⟨q, ?_, hqid, hqin, hqrow⟩
            have := @updatePS_mem_of_mem _ pid (fun q => { q with aisleRow := ps.aisleRow + 1 }) _ hq
            rwa [if_neg hidne] at this
  · intro pid0 hpid0
    obtain ⟨q, hq, hqid, hqw⟩ := h5 pid0 hpid0
    have hidne : q.passenger.id ≠ pid := by
      intro hid
      rw [huniq q hq hid] at hqw
      exact waiting_not_inAisle hin hqw
    refine ⟨q, ?_, hqid, hqw⟩
    have := @updatePS_mem_of_mem _ pid (fun q => { q with aisleRow := ps.aisleRow + 1 }) _ hq
    rwa [if_neg hidne] at this
  · intro q' hq'
    rcases mem_updatePS hq' with ⟨q, hq, hq'eq⟩
    by_cases hid : q.passenger.id = pid
    · rw [huniq q hq hid, if_pos hpsid] at hq'eq
      subst hq'eq
      refine ⟨by simpa using by omega, fun hw => ?_⟩
      exact absurd hw (fun hw' => waiting_not_inAisle hin hw')
    · rw [if_neg hid] at hq'eq
      rw [hq'eq]
      exact h7 q hq

theorem Inv_seatOne (s : Simulation) (pid : Nat) (ps : PState)
    (hfind : findPS s.passengerStates pid = Option.some ps)
    (hin : isInAisleStateB ps.state = true)
    (h : Inv s) :
    Inv { s with
      aircraft := (s.aircraft.removeFromAisle ps.aisleRow.toNat).seatPassenger
        ps.passenger,
      passengerStates := updatePS s.passengerStates pid
        (fun q => { q with
          state := PassengerState.seated,
          seatedAt := (s.currentStep : Int) }) } := by
  obtain ⟨h1, h2, h3, h4, h5, h6, h7⟩ := h
  obtain ⟨hpsmem, hpsid⟩ := findPS_eq_some hfind
  have huniq : ∀ q ∈ s.passengerStates, q.passenger.id = pid → q = ps := fun q hq hqid =>
    uniq_of_nodup_ids h1 hq hpsmem (by rw [hqid, hpsid])
  obtain ⟨hr0, hrle, hrget⟩ := h3 ps hpsmem hin
  set r : Nat := ps.aisleRow.toNat with hrdef
  have hget_r : (s.aircraft.aisle.set r Option.none).get? r = Option.some Option.none := by
    rw [List.get?_set_eq, hrget]
    rfl
  have hget_other : ∀ c : Nat, c ≠ r →
      (s.aircraft.aisle.set r Option.none).get? c = s.aircraft.aisle.get? c := by
    intro c hc
    rw [List.get?_set_ne _ _ (fun hh => hc hh.symm)]
  have hmapid : (updatePS s.passengerStates pid
      (fun q => { q with
        state := PassengerState.seated,
        seatedAt := (s.currentStep : Int) })).map (fun q => q.passenger.id) =
      s.passengerStates.map (fun q => q.passenger.id) :=
    updatePS_map_comp _ _ _ _ (fun q _ _ => rfl)
  refine ⟨by rw [hmapid]; exact h1,
    by show (s.aircraft.aisle.set r Option.none).length = s.aircraft.rows + 1; simp [h2],
    ?_, ?_, ?_, h6, ?_⟩
  · intro q' hq' hin'
    rcases mem_updatePS hq' with ⟨q, hq, hq'eq⟩
    by_cases hid : q.passenger.id = pid
    · rw [huniq q hq hid, if_pos hpsid] at hq'eq
      rw [hq'eq] at hin'
      simp [isInAisleStateB] at hin'
    · rw [if_neg hid] at hq'eq
      rw [hq'eq] at hin' ⊢
      obtain ⟨hq0, hqle, hqget⟩ := h3 q hq hin'
      refine ⟨hq0, hqle, ?_⟩
      have hc : q.aisleRow.toNat ≠ r := by
        intro hc
        rw [hc, hrget] at hqget
        have hpq : ps.passenger.id = q.passenger.id := by simpa using hqget
        exact hid (hpq ▸ hpsid)
      show (s.aircraft.aisle.set r Option.none).get? q.aisleRow.toNat =
        Option.some (Option.some q.passenger.id)
      rw [hget_other _ hc]
      exact hqget
  · intro r0 hr0mem
    rw [List.mem_range] at hr0mem
    have hr0lt : r0 < s.aircraft.aisle.length := by
      simpa [Aircraft.seatPassenger, Aircraft.removeFromAisle] using hr0mem
    show cellBacked _ r0 ((s.aircraft.aisle.set r Option.none).getD r0 Option.none)
    rw [getD_eq_get?_getD]
    by_cases hc : r0 = r
    · rw [hc, hget_r]
      exact trivial
    · rw [hget_other _ hc]
      have h4r := h4 r0 (by rw [List.mem_range]; exact hr0lt)
      rw [getD_eq_get?_getD] at h4r
      cases hcell : s.aircraft.aisle.get? r0 with
      | none => exact trivial
      | some cell =>
        rw [hcell] at h4r
        cases cell with
        | none => exact trivial
        | some pid0 =>
          obtain ⟨q, hq, hqid, hqin, hqrow⟩ := h4r
          have hidne : q.passenger.id ≠ pid := by
            intro hid
            rw [huniq q hq hid] at hqrow
            exact hc (by omega)
          refine ⟨q, ?_, hqid, hqin, hqrow⟩
          have := @updatePS_mem_of_mem _ pid (fun q => { q with
              state := PassengerState.seated,
              seatedAt := (s.currentStep : Int) }) _ hq
          rwa [if_neg hidne] at this
  · intro pid0 hpid0
    obtain ⟨q, hq, hqid, hqw⟩ := h5 pid0 hpid0
    have hidne : q.passenger.id ≠ pid := by
      intro hid
      rw [huniq q hq hid] at hqw
      exact waiting_not_inAisle hin hqw
    refine ⟨q, ?_, hqid, hqw⟩
    have := @updatePS_mem_of_mem _ pid (fun q => { q with
        state := PassengerState.seated,
        seatedAt := (s.currentStep : Int) }) _ hq
    rwa [if_neg hidne] at this
  · intro q' hq'
    rcases mem_updatePS hq' with ⟨q, hq, hq'eq⟩
    by_cases hid : q.passenger.id = pid
    · rw [huniq q hq hid, if_pos hpsid] at hq'eq
      rw [hq'eq]
      exact ⟨(h7 ps hpsmem).1, fun hw => by cases hw⟩
    · rw [if_neg hid] at hq'eq
      rw [hq'eq]
      exact h7 q hq

theorem Inv_enter (s : Simulation) (pid : Nat) (rest : List Nat) (ps : PState)
    (hq : s.queue = pid :: rest)
    (hocc : s.aircraft.isAisleOccupied 0 = false)
    (hfind : findPS s.passengerStates pid = Option.some ps)
    (h : Inv s) :
    Inv { s with
      queue := rest,
      aircraft := s.aircraft.placeInAisle pid 0,
      passengerStates := updatePS s.passengerStates pid
        (fun q => { q with
          state := PassengerState.walking,
          aisleRow := 0,
          enteredAt := (s.currentStep : Int) }) } := by
  obtain ⟨h1, h2, h3, h4, h5, h6, h7⟩ := h
  obtain ⟨hpsmem, hpsid⟩ := findPS_eq_some hfind
  have huniq : ∀ q ∈ s.passengerStates, q.passenger.id = pid → q = ps := fun q hq hqid =>
    uniq_of_nodup_ids h1 hq hpsmem (by rw [hqid, hpsid])
  have hw : ps.state = PassengerState.waiting := by
    obtain ⟨q, hq', hqid, hqw⟩ := h5 pid (by rw [hq]; exact List.mem_cons_self _ _)
    rw [huniq q hq' hqid] at hqw
    exact hqw
  have hfree0 : s.aircraft.aisle.get? 0 = Option.some Option.none :=
    isAisleOccupied_false_get? hocc
  have hget_0 : (s.aircraft.aisle.set 0 (Option.some pid)).get? 0 =
      Option.some (Option.some pid) := by
    rw [List.get?_set_eq, hfree0]
    rfl
  have hget_other : ∀ c : Nat, c ≠ 0 →
      (s.aircraft.aisle.set 0 (Option.some pid)).get? c = s.aircraft.aisle.get? c := by
    intro c hc
    rw [List.get?_set_ne _ _ (fun hh => hc hh.symm)]
  have hfpsmem : (fun q => { q with
      state := PassengerState.walking,
      aisleRow := (0 : Int),
      enteredAt := (s.currentStep : Int) }) ps ∈
      updatePS s.passengerStates pid (fun q =>
        { q with
          state := PassengerState.walking,
          aisleRow := (0 : Int),
          enteredAt := (s.currentStep : Int) }) := by
    have := @updatePS_mem_of_mem _ pid (fun q => { q with
        state := PassengerState.walking,
        aisleRow := (0 : Int),
        enteredAt := (s.currentStep : Int) }) _ hpsmem
    rwa [if_pos hpsid] at this
  have hmapid : (updatePS s.passengerStates pid
      (fun q => { q with
        state := PassengerState.walking,
        aisleRow := (0 : Int),
        enteredAt := (s.currentStep : Int) })).map (fun q => q.passenger.id) =
      s.passengerStates.map (fun q => q.passenger.id) :=
    updatePS_map_comp _ _ _ _ (fun q _ _ => rfl)
  refine ⟨by rw [hmapid]; exact h1,
    by show (s.aircraft.aisle.set 0 (Option.some pid)).length = s.aircraft.rows + 1
       simp [h2],
    ?_, ?_, ?_, ?_, ?_⟩
  · intro q' hq' hin'
    rcases mem_updatePS hq' with ⟨q, hqm, hq'eq⟩
    by_cases hid : q.passenger.id = pid
    · rw [huniq q hqm hid, if_pos hpsid] at hq'eq
      rw [hq'eq]
      refine ⟨le_refl _, by positivity, ?_⟩
      show (s.aircraft.aisle.set 0 (Option.some pid)).get? (0 : Int).toNat =
        Option.some (Option.some ps.passenger.id)
      rw [show ((0 : Int).toNat) = 0 from rfl, hget_0, hpsid]
    · rw [if_neg hid] at hq'eq
      rw [hq'eq] at hin' ⊢
      obtain ⟨hq0, hqle, hqget⟩ := h3 q hqm hin'
      refine ⟨hq0, hqle, ?_⟩
      have hc : q.aisleRow.toNat ≠ 0 := by
        intro hc
        rw [hc, hfree0] at hqget
        simp at hqget
      show (s.aircraft.aisle.set 0 (Option.some pid)).get? q.aisleRow.toNat =
        Option.some (Option.some q.passenger.id)
      rw [hget_other _ hc]
      exact hqget
  · intro r0 hr0mem
    rw [List.mem_range] at hr0mem
    have hr0lt : r0 < s.aircraft.aisle.length := by
      simpa [Aircraft.placeInAisle] using hr0mem
    show cellBacked _ r0 ((s.aircraft.aisle.set 0 (Option.some pid)).getD r0 Option.none)
    rw [getD_eq_get?_getD]
    by_cases hc : r0 = 0
    · rw [hc, hget_0]
      show cellBacked _ 0 (Option.some pid)
      refine ⟨_, hfpsmem, by simpa using hpsid, by simp [isInAisleStateB], by simp⟩
    · rw [hget_other _ hc]
      have h4r := h4 r0 (by rw [List.mem_range]; exact hr0lt)
      rw [getD_eq_get?_getD] at h4r
      cases hcell : s.aircraft.aisle.get? r0 with
      | none => exact trivial
      | some cell =>
        rw [hcell] at h4r
        cases cell with
        | none => exact trivial
        | some pid0 =>
          obtain ⟨q, hqm, hqid, hqin, hqrow⟩ := h4r
          have hidne : q.passenger.id ≠ pid := by
            intro hid
            rw [huniq q hqm hid] at hqin
            exact waiting_not_inAisle hqin hw
          refine ⟨q, ?_, hqid, hqin, hqrow⟩
          have := @updatePS_mem_of_mem _ pid (fun q => { q with
              state := PassengerState.walking,
              aisleRow := (0 : Int),
              enteredAt := (s.currentStep : Int) }) _ hqm
          rwa [if_neg hidne] at this
  · intro pid0 hpid0
    have hpid0q : pid0 ∈ s.queue := by
      rw [hq]
      exact List.mem_cons_of_mem _ hpid0
    obtain ⟨q, hqm, hqid, hqw⟩ := h5 pid0 hpid0q
    have hidne : q.passenger.id ≠ pid := by
      intro hid
      have hps : pid0 = pid := by rw [← hqid, hid]
      have : pid ∉ rest := by
        have := h6
        rw [hq, List.nodup_cons] at this
        exact this.1
      exact this (hps ▸ hpid0)
    refine ⟨q, ?_, hqid, hqw⟩
    have := @updatePS_mem_of_mem _ pid (fun q => { q with
        state := PassengerState.walking,
        aisleRow := (0 : Int),
        enteredAt := (s.currentStep : Int) }) _ hqm
    rwa [if_neg hidne] at this
  · have := h6
    rw [hq, List.nodup_cons] at this
    exact this.2
  · intro q' hq'
    rcases mem_updatePS hq' with ⟨q, hqm, hq'eq⟩
    by_cases hid : q.passenger.id = pid
    · rw [huniq q hqm hid, if_pos hpsid] at hq'eq
      rw [hq'eq]
      exact ⟨by norm_num, fun hwc => by cases hwc⟩
    · rw [if_neg hid] at hq'eq
      rw [hq'eq]
      exact h7 q hqm

theorem useBinCapacity_preserves (a : Aircraft) (r : Nat) (sz : CarryOnSize) :
    ((a.useBinCapacity r sz).1).rows = a.rows ∧
    ((a.useBinCapacity r sz).1).aisle = a.aisle := by
  rcases useBinCapacity_spec a r sz with ⟨hs, _⟩ | ⟨c, _, _, _, hs⟩ | ⟨hs, _⟩ <;>
    simp [hs]

theorem Inv_startSeating (s : Simulation) (pid : Nat) (h : Inv s)
    (hin : ∀ ps, findPS s.passengerStates pid = Option.some ps →
      isInAisleStateB ps.state = true) :
    Inv (s.startSeating pid) := by
  unfold Simulation.startSeating
  cases hfind : findPS s.passengerStates pid with
  | none => simpa only [hfind] using h
  | some ps =>
    have hinps := hin ps hfind
    simp only [hfind]
    by_cases hb : (s.aircraft.getBlockingSeats ps.passenger.row ps.passenger.col).length > 0
    · rw [if_pos hb, Inv_recordEvent]
      refine Inv_updatePS s pid ps _ hfind rfl rfl ?_ ?_ h
      · rw [show isInAisleStateB PassengerState.shuffling = true from rfl, hinps]
      · refine iff_of_false (by simp) fun hw => waiting_not_inAisle hinps hw
    · rw [if_neg hb]
      refine Inv_updatePS s pid ps _ hfind rfl rfl ?_ ?_ h
      · rw [show isInAisleStateB PassengerState.seating = true from rfl, hinps]
      · refine iff_of_false (by simp) fun hw => waiting_not_inAisle hinps hw

theorem findPS_startSeating_other (s : Simulation) (pid pid' : Nat) (hne : pid ≠ pid') :
    findPS (s.startSeating pid').passengerStates pid = findPS s.passengerStates pid := by
  unfold Simulation.startSeating
  cases hfind : findPS s.passengerStates pid' with
  | none => rfl
  | some ps =>
    simp only [hfind]
    by_cases hb : (s.aircraft.getBlockingSeats ps.passenger.row ps.passenger.col).length > 0
    · rw [if_pos hb]
      exact findPS_updatePS_ne _ _ _ _ (fun q => rfl) hne
    · rw [if_neg hb]
      exact findPS_updatePS_ne _ _ _ _ (fun q => rfl) hne

theorem Inv_processWalking (s : Simulation) (pid : Nat) (ps : PState)
    (hfind : findPS s.passengerStates pid = Option.some ps)
    (hst : ps.state = PassengerState.walking) (h : Inv s) :
    Inv (s.processWalking pid) := by
  have hin : isInAisleStateB ps.state = true := by rw [hst]; rfl
  unfold Simulation.processWalking
  simp only [hfind]
  by_cases harr : ps.aisleRow = (ps.passenger.row : Int)
  · rw [if_pos harr]
    by_cases hbag : ps.passenger.carryOnSize ≠ CarryOnSize.noBag
    · rw [if_pos hbag]
      have hs1 := Inv_updatePS s pid ps
        (fun q => { q with state := PassengerState.stowing,
                           stowRemaining := (stowTime ps.passenger.carryOnSize : Int) })
        hfind rfl rfl
        (by rw [show isInAisleStateB PassengerState.stowing = true from rfl, hin])
        (iff_of_false (by simp) fun hw => waiting_not_inAisle hin hw) h
      split
      · rw [Inv_recordEvent, Inv_recordEvent]
        exact hs1
      · rw [Inv_recordEvent]
        exact hs1
    · rw [if_neg hbag]
      refine Inv_startSeating s pid h ?_
      intro ps' hfind'
      rw [hfind] at hfind'
      rw [← Option.some.inj hfind']
      exact hin
  · rw [if_neg harr]
    by_cases hmv : ps.aisleRow + 1 ≤ (s.aircraft.rows : Int) ∧
        ¬ s.aircraft.isAisleOccupied (ps.aisleRow + 1).toNat = true
    · rw [if_pos hmv, Inv_recordEvent]
      exact Inv_move s pid ps hfind hin hmv.1 (by simpa using hmv.2) h
    · rw [if_neg hmv, Inv_recordEvent]
      exact Inv_updatePS s pid ps _ hfind rfl rfl rfl Iff.rfl h

theorem Inv_processStowing (s : Simulation) (pid : Nat) (ps : PState)
    (hfind : findPS s.passengerStates pid = Option.some ps)
    (hst : ps.state = PassengerState.stowing) (h : Inv s) :
    Inv (s.processStowing pid) := by
  have hin : isInAisleStateB ps.state = true := by rw [hst]; rfl
  unfold Simulation.processStowing
  simp only [hfind]
  by_cases hrem : ps.stowRemaining - 1 ≤ 0
  · rw [if_pos hrem]
    have hpres := useBinCapacity_preserves s.aircraft ps.aisleRow.toNat
      ps.passenger.carryOnSize
    have hs1 : Inv { s with
        aircraft := (s.aircraft.useBinCapacity ps.aisleRow.toNat
          ps.passenger.carryOnSize).1,
        passengerStates := updatePS s.passengerStates pid
          (fun q => { q with stowRemaining := ps.stowRemaining - 1 }) } := by
      have hu : Inv { s with
          passengerStates := updatePS s.passengerStates pid
            (fun q => { q with stowRemaining := ps.stowRemaining - 1 }) } :=
        Inv_updatePS s pid ps _ hfind rfl rfl rfl Iff.rfl h
      exact Inv_aircraft_swap { s with
          passengerStates := updatePS s.passengerStates pid
            (fun q => { q with stowRemaining := ps.stowRemaining - 1 }) }
        _ hpres.1 hpres.2 hu
    refine Inv_startSeating _ pid ?_ ?_
    · rw [Inv_recordEvent]
      exact hs1
    · intro ps' hfind'
      have hfind'' : findPS (updatePS s.passengerStates pid
          (fun q => { q with stowRemaining := ps.stowRemaining - 1 })) pid =
          Option.some ps' := hfind'
      rw [findPS_updatePS_self s.passengerStates pid
          (fun q => { q with stowRemaining := ps.stowRemaining - 1 }) (fun q => rfl),
        hfind, Option.map_some'] at hfind''
      rw [← Option.some.inj hfind'']
      exact hin
  · rw [if_neg hrem]
    exact Inv_updatePS s pid ps _ hfind rfl rfl rfl Iff.rfl h

theorem Inv_processShuffling (s : Simulation) (pid : Nat) (ps : PState)
    (hfind : findPS s.passengerStates pid = Option.some ps)
    (hst : ps.state = PassengerState.shuffling) (h : Inv s) :
    Inv (s.processShuffling pid) := by
  have hin : isInAisleStateB ps.state = true := by rw [hst]; rfl
  unfold Simulation.processShuffling
  simp only [hfind]
  have hs1 : Inv { s with
      passengerStates := updatePS s.passengerStates pid
        (fun q => { q with shuffleRemaining := ps.shuffleRemaining - 1,
                           waitTime := q.waitTime + 1 }) } :=
    Inv_updatePS s pid ps _ hfind rfl rfl rfl Iff.rfl h
  have hfind1 : findPS (updatePS s.passengerStates pid
      (fun q => { q with shuffleRemaining := ps.shuffleRemaining - 1,
                         waitTime := q.waitTime + 1 })) pid =
      Option.some ({ ps with shuffleRemaining := ps.shuffleRemaining - 1,
                             waitTime := ps.waitTime + 1 }) := by
    rw [findPS_updatePS_self s.passengerStates pid
        (fun q => { q with
          shuffleRemaining := ps.shuffleRemaining - 1,
          waitTime := q.waitTime + 1 }) (fun q => rfl), hfind]
    rfl
  by_cases hrem : ps.shuffleRemaining - 1 ≤ 0
  · rw [if_pos hrem]
    refine Inv_updatePS _ pid _ _ hfind1 rfl rfl ?_ ?_ hs1
    · simp [isInAisleStateB, hst]
    · exact iff_of_false (by simp) fun hw => (by simp [hst] at hw)
  · rw [if_neg hrem]
    exact hs1

theorem Inv_processSeating (s : Simulation) (pid : Nat) (ps : PState)
    (hfind : findPS s.passengerStates pid = Option.some ps)
    (hst : ps.state = PassengerState.seating) (h : Inv s) :
    Inv (s.processSeating pid) := by
  have hin : isInAisleStateB ps.state = true := by rw [hst]; rfl
  unfold Simulation.processSeating
  simp only [hfind]
  rw [Inv_recordEvent]
  exact Inv_seatOne s pid ps hfind hin h

theorem Inv_processPassengerInAisle (s : Simulation) (pid : Nat) (h : Inv s) :
    Inv (s.processPassengerInAisle pid) := by
  unfold Simulation.processPassengerInAisle
  cases hfind : findPS s.passengerStates pid with
  | none => simpa only [hfind] using h
  | some ps =>
    simp only [hfind]
    cases hst : ps.state with
    | walking => exact Inv_processWalking s pid ps hfind hst h
    | stowing => exact Inv_processStowing s pid ps hfind hst h
    | shuffling => exact Inv_processShuffling s pid ps hfind hst h
    | seating => exact Inv_processSeating s pid ps hfind hst h
    | waiting => exact h
    | seated => exact h

theorem Inv_foldProcess (l : List Nat) :
    ∀ s : Simulation, Inv s →
      Inv (l.foldl (fun t pid => t.processPassengerInAisle pid) s) := by
  induction l with
  | nil => intro s h; exact h
  | cons pid rest ih =>
    intro s h
    exact ih _ (Inv_processPassengerInAisle s pid h)

theorem Inv_stepAisle (s : Simulation) (h : Inv s) : Inv s.stepAisle := by
  unfold Simulation.stepAisle
  exact Inv_foldProcess _ _ h

theorem Inv_tryAdd (s : Simulation) (h : Inv s) : Inv s.tryAddFromQueue := by
  unfold Simulation.tryAddFromQueue
  cases hq : s.queue with
  | nil => exact h
  | cons pid rest =>
    dsimp only
    by_cases hocc : s.aircraft.isAisleOccupied 0 = true
    · rw [if_pos hocc]
      exact h
    · rw [if_neg hocc]
      cases hfind : findPS s.passengerStates pid with
      | none => simpa only [hfind] using h
      | some ps =>
        simp only [hfind]
        rw [Inv_recordEvent]
        exact Inv_enter s pid rest ps hq (by simpa using hocc) hfind h

theorem Inv_checkCompletion (s : Simulation) (h : Inv s) : Inv s.checkCompletion := by
  unfold Simulation.checkCompletion
  split
  · exact h
  · exact h

theorem Inv_currentStep (s : Simulation) (n : Nat) (h : Inv s) :
    Inv { s with currentStep := n } := h

theorem Inv_step (s : Simulation) (h : Inv s) : Inv s.step := by
  unfold Simulation.step
  split
  · exact h
  · exact Inv_checkCompletion _ (Inv_tryAdd _ (Inv_stepAisle _ h))

theorem Inv_stepN (s : Simulation) (h : Inv s) : ∀ n, Inv (s.stepN n) := by
  intro n
  induction n with
  | zero => exact h
  | succ m ih => exact Inv_step _ ih

theorem getD_replicate_self {α} (n r : Nat) (a : α) :
    (List.replicate n a).getD r a = a := by
  induction n generalizing r with
  | zero => cases r <;> rfl
  | succ m ih =>
    cases r with
    | zero => rfl
    | succ k => exact ih k

theorem Inv_init (a : Aircraft) (passengers : List Passenger) (order : List Nat)
    (hids : (passengers.map fun p => p.id).Nodup)
    (hord : order.Nodup)
    (hsub : ∀ pid ∈ order, ∃ p ∈ passengers, p.id = pid) :
    Inv ((Simulation.init a passengers).setBoardingOrder order) := by
  refine ⟨?_, ?_, ?_, ?_, ?_, hord, ?_⟩
  · show ((passengers.map initPState).map fun ps => ps.passenger.id).Nodup
    rw [List.map_map]
    exact hids
  · show (List.replicate (a.rows + 1) (Option.none : Option Nat)).length = a.rows + 1
    simp
  · intro ps hps hin
    rcases List.mem_map.mp hps with ⟨p, _, rfl⟩
    exact absurd hin (by simp [initPState, isInAisleStateB])
  · intro r hr
    show cellBacked _ r
      ((List.replicate (a.rows + 1) (Option.none : Option Nat)).getD r Option.none)
    rw [getD_replicate_self]
    exact trivial
  · intro pid hpid
    obtain ⟨p, hp, hpd⟩ := hsub pid hpid
    exact ⟨initPState p, List.mem_map_of_mem _ hp, hpd, rfl⟩
  · intro ps hps
    rcases List.mem_map.mp hps with ⟨p, _, rfl⟩
    exact ⟨le_refl _, fun _ => rfl⟩

theorem map_passenger_updatePS (l : List PState) (pid : Nat) (f : PState → PState)
    (hf : ∀ q, (f q).passenger = q.passenger) :
    (updatePS l pid f).map (fun ps => ps.passenger) =
      l.map (fun ps => ps.passenger) :=
  updatePS_map_comp l pid f _ (fun q _ _ => hf q)

theorem map_passenger_startSeating (s : Simulation) (pid : Nat) :
    (s.startSeating pid).passengerStates.map (fun ps => ps.passenger) =
      s.passengerStates.map (fun ps => ps.passenger) := by
  unfold Simulation.startSeating
  cases hfind : findPS s.passengerStates pid with
  | none => rfl
  | some ps =>
    simp only [hfind]
    split
    · exact map_passenger_updatePS _ _ _ (fun q => rfl)
    · exact map_passenger_updatePS _ _ _ (fun q => rfl)

theorem map_passenger_processWalking (s : Simulation) (pid : Nat) :
    (s.processWalking pid).passengerStates.map (fun ps => ps.passenger) =
      s.passengerStates.map (fun ps => ps.passenger) := by
  unfold Simulation.processWalking
  cases hfind : findPS s.passengerStates pid with
  | none => rfl
  | some ps =>
    simp only [hfind]
    split
    · split
      · split
        · exact map_passenger_updatePS _ _ _ (fun q => rfl)
        · exact map_passenger_updatePS _ _ _ (fun q => rfl)
      · exact map_passenger_startSeating s pid
    · split
      · exact map_passenger_updatePS _ _ _ (fun q => rfl)
      · exact map_passenger_updatePS _ _ _ (fun q => rfl)

theorem map_passenger_processStowing (s : Simulation) (pid : Nat) :
    (s.processStowing pid).passengerStates.map (fun ps => ps.passenger) =
      s.passengerStates.map (fun ps => ps.passenger) := by
  unfold Simulation.processStowing
  cases hfind : findPS s.passengerStates pid with
  | none => rfl
  | some ps =>
    simp only [hfind]
    split
    · rw [map_passenger_startSeating]
      exact map_passenger_updatePS _ _ _ (fun q => rfl)
    · exact map_passenger_updatePS _ _ _ (fun q => rfl)

theorem map_passenger_processShuffling (s : Simulation) (pid : Nat) :
    (s.processShuffling pid).passengerStates.map (fun ps => ps.passenger) =
      s.passengerStates.map (fun ps => ps.passenger) := by
  unfold Simulation.processShuffling
  cases hfind : findPS s.passengerStates pid with
  | none => rfl
  | some ps =>
    simp only [hfind]
    split
    · exact Eq.trans
        (map_passenger_updatePS _ pid
          (fun q => { q with state := PassengerState.seating }) (fun q => rfl))
        (map_passenger_updatePS s.passengerStates pid
          (fun q => { q with shuffleRemaining := ps.shuffleRemaining - 1,
                             waitTime := q.waitTime + 1 }) (fun q => rfl))
    · exact map_passenger_updatePS _ _ _ (fun q => rfl)

theorem map_passenger_processSeating (s : Simulation) (pid : Nat) :
    (s.processSeating pid).passengerStates.map (fun ps => ps.passenger) =
      s.passengerStates.map (fun ps => ps.passenger) := by
  unfold Simulation.processSeating
  cases hfind : findPS s.passengerStates pid with
  | none => rfl
  | some ps =>
    simp only [hfind]
    exact map_passenger_updatePS _ _ _ (fun q => rfl)

theorem map_passenger_processPassengerInAisle (s : Simulation) (pid : Nat) :
    (s.processPassengerInAisle pid).passengerStates.map (fun ps => ps.passenger) =
      s.passengerStates.map (fun ps => ps.passenger) := by
  unfold Simulation.processPassengerInAisle
  cases hfind : findPS s.passengerStates pid with
  | none => rfl
  | some ps =>
    simp only [hfind]
    cases ps.state
    · rfl
    · exact map_passenger_processWalking s pid
    · exact map_passenger_processStowing s pid
    · exact map_passenger_processShuffling s pid
    · exact map_passenger_processSeating s pid
    · rfl

theorem map_passenger_fold (l : List Nat) :
    ∀ s : Simulation,
      (l.foldl (fun t pid => t.processPassengerInAisle pid) s).passengerStates.map
        (fun ps => ps.passenger) =
      s.passengerStates.map (fun ps => ps.passenger) := by
  induction l with
  | nil => intro s; rfl
  | cons pid rest ih =>
    intro s
    rw [List.foldl_cons, ih, map_passenger_processPassengerInAisle]

theorem map_passenger_tryAdd (s : Simulation) :
    (s.tryAddFromQueue).passengerStates.map (fun ps => ps.passenger) =
      s.passengerStates.map (fun ps => ps.passenger) := by
  unfold Simulation.tryAddFromQueue
  cases hq : s.queue with
  | nil => rfl
  | cons pid rest =>
    dsimp only
    split
    · rfl
    · cases hfind : findPS s.passengerStates pid with
      | none => rfl
      | some ps =>
        simp only [hfind]
        exact map_passenger_updatePS _ _ _ (fun q => rfl)

theorem map_passenger_step (s : Simulation) :
    (s.step).passengerStates.map (fun ps => ps.passenger) =
      s.passengerStates.map (fun ps => ps.passenger) := by
  unfold Simulation.step
  split
  · rfl
  · show ((((s.stepAisle).tryAddFromQueue).checkCompletion).passengerStates.map _) = _
    have hcc : ∀ t : Simulation, (t.checkCompletion).passengerStates = t.passengerStates := by
      intro t
      unfold Simulation.checkCompletion
      split <;> rfl
    rw [hcc, map_passenger_tryAdd]
    unfold Simulation.stepAisle
    rw [map_passenger_fold]

theorem map_passenger_stepN (s : Simulation) (n : Nat) :
    (s.stepN n).passengerStates.map (fun ps => ps.passenger) =
      s.passengerStates.map (fun ps => ps.passenger) := by
  induction n with
  | zero => rfl
  | succ m ih => rw [Simulation.stepN, map_passenger_step, ih]

/-- C5: at every tick, starting from a valid configuration (unique
passenger ids, pairwise-distinct seat assignments, a duplicate-free
boarding order over known ids), no two passenger run-states reference the
same aisle cell, and no two reference the same seat. -/
theorem occupancy_invariant (a : Aircraft) (passengers : List Passenger)
    (order : List Nat) (n : Nat)
    (hids : (passengers.map fun p => p.id).Nodup)
    (hseats : (passengers.map fun p => (p.row, p.col)).Nodup)
    (hord : order.Nodup)
    (hsub : ∀ pid ∈ order, ∃ p ∈ passengers, p.id = pid) :
    (((Simulation.init a passengers).setBoardingOrder order).stepN
        n).passengerStates.Pairwise (fun x y =>
      (isInAisleStateB x.state = true → isInAisleStateB y.state = true →
        x.aisleRow ≠ y.aisleRow) ∧
      (x.state = PassengerState.seated → y.state = PassengerState.seated →
        (x.passenger.row, x.passenger.col) ≠ (y.passenger.row, y.passenger.col))) := by
  set sn := ((Simulation.init a passengers).setBoardingOrder order).stepN n with hsn
  have hInv : Inv sn := Inv_stepN _ (Inv_init a passengers order hids hord hsub) n
  obtain ⟨h1, h2, h3, h4, h5, h6, h7⟩ := hInv
  have hidspw : sn.passengerStates.Pairwise
      (fun x y => x.passenger.id ≠ y.passenger.id) := List.pairwise_map.mp h1
  have hmp : sn.passengerStates.map (fun ps => ps.passenger) =
      (passengers.map initPState).map (fun ps => ps.passenger) := by
    rw [hsn]
    exact map_passenger_stepN _ n
  have hseatmap : (sn.passengerStates.map
      (fun ps => (ps.passenger.row, ps.passenger.col))).Nodup := by
    have hcomp : sn.passengerStates.map (fun ps => (ps.passenger.row, ps.passenger.col)) =
        (sn.passengerStates.map (fun ps => ps.passenger)).map
          (fun p => (p.row, p.col)) := by
      rw [List.map_map]
      rfl
    rw [hcomp, hmp, List.map_map, List.map_map]
    exact hseats
  have hseatpw : sn.passengerStates.Pairwise (fun x y =>
      (x.passenger.row, x.passenger.col) ≠ (y.passenger.row, y.passenger.col)) :=
    List.pairwise_map.mp hseatmap
  refine (hidspw.and hseatpw).imp_of_mem ?_
  intro x y hx hy hxy
  refine ⟨fun hxin hyin hreq => ?_, fun _ _ => hxy.2⟩
  obtain ⟨hx0, hxle, hxget⟩ := h3 x hx hxin
  obtain ⟨hy0, hyle, hyget⟩ := h3 y hy hyin
  rw [hreq] at hxget
  rw [hxget] at hyget
  exact hxy.1 (by simpa using hyget)

/-! ### Frame lemmas for one tick -/

/-- Queue, step counter, and an events-only-appended fact (with no ENTER
event) for a tick-phase state transformer. -/
def FrameNoEnter (s s' : Simulation) : Prop :=
  s'.queue = s.queue ∧ s'.currentStep = s.currentStep ∧
  s'.passengerStates.length = s.passengerStates.length ∧
  ∃ δ, s'.events = s.events ++ δ ∧ ∀ e ∈ δ, e.type ≠ EventType.enter

theorem FrameNoEnter_refl (s : Simulation) : FrameNoEnter s s :=
  ⟨rfl, rfl, rfl, [], by simp, by simp⟩

theorem FrameNoEnter_trans {s t u : Simulation} (h1 : FrameNoEnter s t)
    (h2 : FrameNoEnter t u) : FrameNoEnter s u := by
  obtain ⟨hq1, hc1, hl1, δ1, he1, hd1⟩ := h1
  obtain ⟨hq2, hc2, hl2, δ2, he2, hd2⟩ := h2
  refine ⟨hq2.trans hq1, hc2.trans hc1, hl2.trans hl1, δ1 ++ δ2, ?_, ?_⟩
  · rw [he2, he1, List.append_assoc]
  · intro e he
    rcases List.mem_append.mp he with h | h
    · exact hd1 e h
    · exact hd2 e h

theorem length_updatePS (l : List PState) (pid : Nat) (f : PState → PState) :
    (updatePS l pid f).length = l.length := by
  unfold updatePS
  rw [List.length_map]

theorem FrameNoEnter_updatePS (s : Simulation) (pid : Nat) (f : PState → PState) :
    FrameNoEnter s { s with passengerStates := updatePS s.passengerStates pid f } :=
  ⟨rfl, rfl, length_updatePS _ _ _, [], by simp, by simp⟩

theorem FrameNoEnter_recordEvent (s : Simulation) (t : EventType) (p : Passenger)
    (d : EventData) (hne : t ≠ EventType.enter) :
    FrameNoEnter s (s.recordEvent t p d) := by
  refine ⟨rfl, rfl, rfl, [_], rfl, ?_⟩
  intro e he
  rcases List.mem_singleton.mp he with rfl
  exact hne

theorem FrameNoEnter_startSeating (s : Simulation) (pid : Nat) :
    FrameNoEnter s (s.startSeating pid) := by
  unfold Simulation.startSeating
  cases hfind : findPS s.passengerStates pid with
  | none => exact FrameNoEnter_refl s
  | some ps =>
    simp only [hfind]
    split
    · exact FrameNoEnter_trans (FrameNoEnter_updatePS s pid _)
        (FrameNoEnter_recordEvent _ _ _ _ (by simp))
    · exact FrameNoEnter_updatePS s pid _

theorem FrameNoEnter_processWalking (s : Simulation) (pid : Nat) :
    FrameNoEnter s (s.processWalking pid) := by
  unfold Simulation.processWalking
  cases hfind : findPS s.passengerStates pid with
  | none => exact FrameNoEnter_refl s
  | some ps =>
    simp only [hfind]
    split
    · split
      · split
        · exact FrameNoEnter_trans (FrameNoEnter_updatePS s pid _)
            (FrameNoEnter_trans (FrameNoEnter_recordEvent _ _ _ _ (by simp))
              (FrameNoEnter_recordEvent _ _ _ _ (by simp)))
        · exact FrameNoEnter_trans (FrameNoEnter_updatePS s pid _)
            (FrameNoEnter_recordEvent _ _ _ _ (by simp))
      · exact FrameNoEnter_startSeating s pid
    · split
      · refine FrameNoEnter_trans ?_ (FrameNoEnter_recordEvent _ _ _ _ (by simp))
        exact ⟨rfl, rfl, length_updatePS _ _ _, [], by simp, by simp⟩
      · exact FrameNoEnter_trans (FrameNoEnter_updatePS s pid _)
            (FrameNoEnter_recordEvent _ _ _ _ (by simp))

theorem FrameNoEnter_processStowing (s : Simulation) (pid : Nat) :
    FrameNoEnter s (s.processStowing pid) := by
  unfold Simulation.processStowing
  cases hfind : findPS s.passengerStates pid with
  | none => exact FrameNoEnter_refl s
  | some ps =>
    simp only [hfind]
    split
    · refine FrameNoEnter_trans ?_ (FrameNoEnter_trans
        (FrameNoEnter_recordEvent _ _ _ _ (by simp)) (FrameNoEnter_startSeating _ pid))
      exact ⟨rfl, rfl, length_updatePS _ _ _, [], by simp, by simp⟩
    · exact FrameNoEnter_updatePS s pid _

theorem FrameNoEnter_processShuffling (s : Simulation) (pid : Nat) :
    FrameNoEnter s (s.processShuffling pid) := by
  unfold Simulation.processShuffling
  cases hfind : findPS s.passengerStates pid with
  | none => exact FrameNoEnter_refl s
  | some ps =>
    simp only [hfind]
    split
    · exact FrameNoEnter_trans (FrameNoEnter_updatePS s pid _)
        (FrameNoEnter_trans
          (FrameNoEnter_recordEvent _ EventType.shuffleEnd _ _ (by simp))
          (FrameNoEnter_updatePS _ pid _))
    · exact FrameNoEnter_updatePS s pid _

theorem FrameNoEnter_processSeating (s : Simulation) (pid : Nat) :
    FrameNoEnter s (s.processSeating pid) := by
  unfold Simulation.processSeating
  cases hfind : findPS s.passengerStates pid with
  | none => exact FrameNoEnter_refl s
  | some ps =>
    simp only [hfind]
    refine FrameNoEnter_trans ?_ (FrameNoEnter_recordEvent _ _ _ _ (by simp))
    exact ⟨rfl, rfl, length_updatePS _ _ _, [], by simp, by simp⟩

theorem FrameNoEnter_processPassengerInAisle (s : Simulation) (pid : Nat) :
    FrameNoEnter s (s.processPassengerInAisle pid) := by
  unfold Simulation.processPassengerInAisle
  cases hfind : findPS s.passengerStates pid with
  | none => exact FrameNoEnter_refl s
  | some ps =>
    simp only [hfind]
    cases ps.state
    · exact FrameNoEnter_refl s
    · exact FrameNoEnter_processWalking s pid
    · exact FrameNoEnter_processStowing s pid
    · exact FrameNoEnter_processShuffling s pid
    · exact FrameNoEnter_processSeating s pid
    · exact FrameNoEnter_refl s

theorem FrameNoEnter_fold (l : List Nat) :
    ∀ s : Simulation,
      FrameNoEnter s (l.foldl (fun t pid => t.processPassengerInAisle pid) s) := by
  induction l with
  | nil => intro s; exact FrameNoEnter_refl s
  | cons pid rest ih =>
    intro s
    exact FrameNoEnter_trans (FrameNoEnter_processPassengerInAisle s pid) (ih _)

theorem stepAisle_frame (s : Simulation) :
    s.stepAisle.queue = s.queue ∧ s.stepAisle.currentStep = s.currentStep + 1 ∧
    s.stepAisle.passengerStates.length = s.passengerStates.length ∧
    ∃ δ, s.stepAisle.events = s.events ++ δ ∧ ∀ e ∈ δ, e.type ≠ EventType.enter := by
  unfold Simulation.stepAisle
  obtain ⟨hq, hc, hl, δ, he, hd⟩ := FrameNoEnter_fold
    ({ s with currentStep := s.currentStep + 1 } : Simulation).aislePassengersSorted
    { s with currentStep := s.currentStep + 1 }
  exact ⟨hq, hc, hl, δ, he, hd⟩

/-! ### Strictly descending processing order -/

theorem state_ne_iff_inAisle (st : PassengerState) :
    ((st ≠ PassengerState.waiting ∧ st ≠ PassengerState.seated) ↔
      isInAisleStateB st = true) := by
  cases st <;> simp [isInAisleStateB]

theorem sortAisleDesc_strict (s : Simulation) (h : Inv s) :
    (sortAisleDesc (inAisleFilter s.passengerStates)).Pairwise
      (fun x y => y.aisleRow < x.aisleRow) := by
  have hdesc : (sortAisleDesc (inAisleFilter s.passengerStates)).Pairwise
      (fun x y => y.aisleRow ≤ x.aisleRow) := by
    refine stableSort_pairwise _ _ ?_ ?_ ?_ _
    · intro x y hxy
      exact of_decide_eq_true hxy
    · intro x y hxy
      exact le_of_lt (lt_of_not_le (of_decide_eq_false hxy))
    · intro x y z hxy hyz
      exact le_trans hyz (le_of_lt (lt_of_not_le (of_decide_eq_false hxy)))
  obtain ⟨h1, h2, h3, h4, h5, h6, h7⟩ := h
  have hpw : s.passengerStates.Pairwise
      (fun x y => x.passenger.id ≠ y.passenger.id) := List.pairwise_map.mp h1
  have hfilter : (inAisleFilter s.passengerStates).Pairwise
      (fun x y => x.aisleRow ≠ y.aisleRow) := by
    have hsub : (inAisleFilter s.passengerStates).Pairwise
        (fun x y => x.passenger.id ≠ y.passenger.id) :=
      hpw.sublist (List.filter_sublist _)
    refine hsub.imp_of_mem ?_
    intro x y hx hy hne
    have hx' := List.of_mem_filter hx
    have hy' := List.of_mem_filter hy
    have hxmem := List.mem_of_mem_filter hx
    have hymem := List.mem_of_mem_filter hy
    simp only [decide_eq_true_eq, Bool.and_eq_true, decide_not] at hx' hy'
    have hxin : isInAisleStateB x.state = true :=
      (state_ne_iff_inAisle x.state).mp ⟨by simpa using hx'.1, by simpa using hx'.2.1⟩
    have hyin : isInAisleStateB y.state = true :=
      (state_ne_iff_inAisle y.state).mp ⟨by simpa using hy'.1, by simpa using hy'.2.1⟩
    obtain ⟨hx0, hxle, hxget⟩ := h3 x hxmem hxin
    obtain ⟨hy0, hyle, hyget⟩ := h3 y hymem hyin
    intro hreq
    rw [hreq] at hxget
    rw [hxget] at hyget
    exact hne (by simpa using hyget)
  have hne : (sortAisleDesc (inAisleFilter s.passengerStates)).Pairwise
      (fun x y => x.aisleRow ≠ y.aisleRow) := by
    exact ((stableSort_perm _ _).pairwise_iff (fun hxy => Ne.symm hxy)).mpr hfilter
  refine (hdesc.and hne).imp ?_
  intro x y hxy
  exact lt_of_le_of_ne hxy.1 (fun hh => hxy.2 hh.symm)

theorem tryAdd_spec (t : Simulation) (hInvT : Inv t) :
    (t.queue = [] ∧ t.tryAddFromQueue = t) ∨
    (∃ pid rest, t.queue = pid :: rest ∧
      ((t.aircraft.isAisleOccupied 0 = true ∧ t.tryAddFromQueue = t) ∨
       (t.aircraft.isAisleOccupied 0 = false ∧ ∃ q,
         findPS t.passengerStates pid = Option.some q ∧ q.passenger.id = pid ∧
         t.tryAddFromQueue = ({ t with
           queue := rest,
           aircraft := t.aircraft.placeInAisle pid 0,
           passengerStates := updatePS t.passengerStates pid
             (fun x => { x with
               state := PassengerState.walking,
               aisleRow := 0,
               enteredAt := (t.currentStep : Int) }) } : Simulation).recordEvent
           EventType.enter q.passenger EventData.noData))) := by
  cases hq : t.queue with
  | nil =>
    refine Or.inl ⟨rfl, ?_⟩
    unfold Simulation.tryAddFromQueue
    rw [hq]
  | cons pid rest =>
    refine Or.inr ⟨pid, rest, rfl, ?_⟩
    by_cases hocc : t.aircraft.isAisleOccupied 0 = true
    · refine Or.inl ⟨hocc, ?_⟩
      unfold Simulation.tryAddFromQueue
      rw [hq]
      dsimp only
      rw [if_pos hocc]
    · obtain ⟨q, hqmem, hqid, hqw⟩ := hInvT.2.2.2.2.1 pid
        (by rw [hq]; exact List.mem_cons_self _ _)
      have hfind : findPS t.passengerStates pid = Option.some q :=
        findPS_eq_some_of_mem hInvT.1 hqmem hqid
      refine Or.inr ⟨by simpa using hocc, q, hfind, hqid, ?_⟩
      unfold Simulation.tryAddFromQueue
      rw [hq]
      dsimp only
      rw [if_neg hocc]
      simp only [hfind]

theorem filter_enter_append (l1 l2 : List Event) :
    ((l1 ++ l2).filter fun e => e.type = EventType.enter).length =
      (l1.filter fun e => e.type = EventType.enter).length +
      (l2.filter fun e => e.type = EventType.enter).length := by
  rw [List.filter_append, List.length_append]

theorem filter_enter_none (δ : List Event) (h : ∀ e ∈ δ, e.type ≠ EventType.enter) :
    (δ.filter fun e => e.type = EventType.enter) = [] := by
  rw [List.filter_eq_nil_iff]
  intro e he
  simpa using h e he

/-- C2: in one tick the simulator processes the in-aisle passengers in
strictly descending aisle-cell order; the aisle phase touches neither the
queue nor admits anyone (its event suffix holds no ENTER event); only
afterwards is the queue head admitted into entry cell 0, precisely when
cell 0 is unoccupied at that moment (an ENTER event then follows all
aisle-phase events of the tick); hence at most one passenger enters the
aircraft per tick. -/
theorem step_descending_order_single_admission (s : Simulation) (hInv : Inv s)
    (hnc : s.isComplete = false) :
    (sortAisleDesc (inAisleFilter s.passengerStates)).Pairwise
      (fun x y => y.aisleRow < x.aisleRow) ∧
    s.stepAisle.queue = s.queue ∧
    (∃ δ, s.stepAisle.events = s.events ++ δ ∧ ∀ e ∈ δ, e.type ≠ EventType.enter) ∧
    (∀ pid rest, s.queue = pid :: rest →
      (s.stepAisle.aircraft.isAisleOccupied 0 = false →
        (s.step).queue = rest ∧
        (s.step).aircraft.aisle.get? 0 = Option.some (Option.some pid) ∧
        (∃ ps', findPS (s.step).passengerStates pid = Option.some ps' ∧
          ps'.state = PassengerState.walking ∧ ps'.aisleRow = 0 ∧
          ps'.enteredAt = (s.currentStep : Int) + 1) ∧
        (∃ ev, (s.step).events = s.stepAisle.events ++ [ev] ∧
          ev.type = EventType.enter ∧ ev.passengerId = pid ∧
          ev.step = s.currentStep + 1)) ∧
      (s.stepAisle.aircraft.isAisleOccupied 0 = true →
        (s.step).queue = s.queue ∧ (s.step).events = s.stepAisle.events)) ∧
    s.queue.length ≤ (s.step).queue.length + 1 ∧
    ((s.step).events.filter fun e => e.type = EventType.enter).length ≤
      (s.events.filter fun e => e.type = EventType.enter).length + 1 := by
  obtain ⟨hqB, hcB, hlB, δ, heB, hdB⟩ := stepAisle_frame s
  have hInvB := Inv_stepAisle s hInv
  have hstep : s.step = ((s.stepAisle).tryAddFromQueue).checkCompletion := by
    unfold Simulation.step
    rw [if_neg (by simp [hnc])]
  have hcc : ∀ t : Simulation, (t.checkCompletion).queue = t.queue ∧
      (t.checkCompletion).events = t.events ∧
      (t.checkCompletion).aircraft = t.aircraft ∧
      (t.checkCompletion).passengerStates = t.passengerStates := by
    intro t
    unfold Simulation.checkCompletion
    split <;> exact ⟨rfl, rfl, rfl, rfl⟩
  have hBcount : ((s.stepAisle.events.filter fun e =>
      e.type = EventType.enter)).length =
      ((s.events.filter fun e => e.type = EventType.enter)).length := by
    rw [heB, filter_enter_append, filter_enter_none δ hdB]
    simp
  refine ⟨sortAisleDesc_strict s hInv, hqB, ⟨δ, heB, hdB⟩, ?_, ?_, ?_⟩
  · intro pid rest hq
    have hqB' : s.stepAisle.queue = pid :: rest := by rw [hqB, hq]
    constructor
    · intro hocc
      rcases tryAdd_spec s.stepAisle hInvB with ⟨hnil, _⟩ | ⟨pid', rest', hq', hcases⟩
      · rw [hqB'] at hnil
        cases hnil
      · obtain ⟨hp, hr⟩ := List.cons.inj (hqB'.symm.trans hq')
        rcases hcases with ⟨hocc', _⟩ | ⟨_, q, hfind, hqid, htry⟩
        · rw [hocc'] at hocc
          cases hocc
        · rw [← hp] at hfind hqid htry
          rw [← hr] at htry
          have hocc0 : s.stepAisle.aircraft.aisle.get? 0 = Option.some Option.none :=
            isAisleOccupied_false_get? hocc
          refine ⟨?_, ?_, ?_, ?_⟩
          · rw [hstep, (hcc _).1, htry]
            rfl
          · rw [hstep, (hcc _).2.2.1, htry]
            show ((s.stepAisle.aircraft.aisle.set 0 (Option.some pid)).get? 0) =
              Option.some (Option.some pid)
            rw [List.get?_set_eq, hocc0]
            rfl
          · refine ⟨{ q with
              state := PassengerState.walking,
              aisleRow := 0,
              enteredAt := (s.stepAisle.currentStep : Int) }, ?_, rfl, rfl, ?_⟩
            · rw [hstep, (hcc _).2.2.2, htry]
              show findPS (updatePS s.stepAisle.passengerStates pid
                (fun x => { x with
                  state := PassengerState.walking,
                  aisleRow := 0,
                  enteredAt := (s.stepAisle.currentStep : Int) })) pid = _
              rw [findPS_updatePS_self s.stepAisle.passengerStates pid
                (fun x => { x with
                  state := PassengerState.walking,
                  aisleRow := 0,
                  enteredAt := (s.stepAisle.currentStep : Int) }) (fun x => rfl),
                hfind, Option.map_some']
            · show (s.stepAisle.currentStep : Int) = (s.currentStep : Int) + 1
              rw [hcB]
              push_cast
              ring
          · refine ⟨⟨s.stepAisle.currentStep, EventType.enter, q.passenger.id,
              q.passenger.row, q.passenger.col, EventData.noData⟩,
              ?_, rfl, hqid, by rw [hcB]⟩
            rw [hstep, (hcc _).2.1, htry]
            rfl
    · intro hocc
      rcases tryAdd_spec s.stepAisle hInvB with ⟨hnil, _⟩ | ⟨pid', rest', hq', hcases⟩
      · rw [hqB'] at hnil
        cases hnil
      · rcases hcases with ⟨_, htry⟩ | ⟨hocc', _⟩
        · constructor
          · rw [hstep, (hcc _).1, htry, hqB]
          · rw [hstep, (hcc _).2.1, htry]
        · rw [hocc'] at hocc
          cases hocc
  · rcases tryAdd_spec s.stepAisle hInvB with ⟨hnil, htry⟩ | ⟨pid, rest, hq', hcases⟩
    · have hsq : s.queue = [] := by rw [← hqB, hnil]
      rw [hstep, (hcc _).1, htry, hqB, hsq]
      simp
    · have hsq : s.queue = pid :: rest := by rw [← hqB, hq']
      rcases hcases with ⟨_, htry⟩ | ⟨_, q, _, _, htry⟩
      · rw [hstep, (hcc _).1, htry, hqB]
        omega
      · rw [hstep, (hcc _).1, htry]
        show s.queue.length ≤ rest.length + 1
        rw [hsq]
        simp
  · rcases tryAdd_spec s.stepAisle hInvB with ⟨hnil, htry⟩ | ⟨pid, rest, hq', hcases⟩
    · rw [hstep, (hcc _).2.1, htry, hBcount]
      omega
    · rcases hcases with ⟨_, htry⟩ | ⟨_, q, _, _, htry⟩
      · rw [hstep, (hcc _).2.1, htry, hBcount]
        omega
      · rw [hstep, (hcc _).2.1, htry]
        show ((s.stepAisle.events ++
            [({ step := s.stepAisle.currentStep, type := EventType.enter,
                passengerId := q.passenger.id, passengerRow := q.passenger.row,
                passengerColumn := q.passenger.col,
                data := EventData.noData } : Event)]).filter (fun e =>
            e.type = EventType.enter)).length ≤
          (s.events.filter fun e => e.type = EventType.enter).length + 1
        rw [filter_enter_append, hBcount]
        simp

theorem startSeating_spec (s : Simulation) (pid : Nat) (ps : PState)
    (hfind : findPS s.passengerStates pid = Option.some ps) :
    ∃ ps', findPS (s.startSeating pid).passengerStates pid = Option.some ps' ∧
      (ps'.state = PassengerState.shuffling ∨ ps'.state = PassengerState.seating) ∧
      (s.startSeating pid).aircraft = s.aircraft := by
  unfold Simulation.startSeating
  simp only [hfind]
  by_cases hb : (s.aircraft.getBlockingSeats ps.passenger.row ps.passenger.col).length > 0
  · rw [if_pos hb]
    refine ⟨{ ps with
      state := PassengerState.shuffling,
      shuffleRemaining := ((s.aircraft.getBlockingSeats ps.passenger.row
        ps.passenger.col).length : Int) * 3 }, ?_, Or.inl rfl, rfl⟩
    show findPS (updatePS s.passengerStates pid (fun q => { q with
      state := PassengerState.shuffling,
      shuffleRemaining := ((s.aircraft.getBlockingSeats ps.passenger.row
        ps.passenger.col).length : Int) * 3 })) pid = _
    rw [findPS_updatePS_self s.passengerStates pid (fun q => { q with
      state := PassengerState.shuffling,
      shuffleRemaining := ((s.aircraft.getBlockingSeats ps.passenger.row
        ps.passenger.col).length : Int) * 3 }) (fun q => rfl), hfind,
      Option.map_some']
  · rw [if_neg hb]
    refine ⟨{ ps with state := PassengerState.seating }, ?_, Or.inr rfl, rfl⟩
    show findPS (updatePS s.passengerStates pid (fun q =>
      { q with state := PassengerState.seating })) pid = _
    rw [findPS_updatePS_self s.passengerStates pid (fun q =>
      { q with state := PassengerState.seating }) (fun q => rfl), hfind,
      Option.map_some']

/-- C7: when a STOWING passenger's remaining ticks reach zero the
simulator consumes bin capacity at the passenger's row best-effort and
proceeds to the seating-eligibility evaluation regardless of capacity
(the passenger leaves STOWING for SHUFFLING or SEATING in both cases,
and with insufficient capacity the bins are simply left unchanged);
insufficient capacity is logged as a BIN_FULL event for that passenger
when stowing starts, and does not keep the passenger from entering
STOWING. -/
theorem stow_best_effort_and_bin_full_logged :
    (∀ (s : Simulation) (pid : Nat) (ps : PState),
      findPS s.passengerStates pid = Option.some ps →
      ps.state = PassengerState.stowing →
      ps.stowRemaining ≤ 1 →
      ∃ ps', findPS (s.processStowing pid).passengerStates pid = Option.some ps' ∧
        (ps'.state = PassengerState.shuffling ∨ ps'.state = PassengerState.seating) ∧
        (s.processStowing pid).aircraft =
          (s.aircraft.useBinCapacity ps.aisleRow.toNat ps.passenger.carryOnSize).1 ∧
        (¬ s.aircraft.hasBinCapacity ps.aisleRow.toNat ps.passenger.carryOnSize = true →
          (s.processStowing pid).aircraft = s.aircraft)) ∧
    (∀ (s : Simulation) (pid : Nat) (ps : PState),
      findPS s.passengerStates pid = Option.some ps →
      ps.state = PassengerState.walking →
      ps.aisleRow = (ps.passenger.row : Int) →
      ps.passenger.carryOnSize ≠ CarryOnSize.noBag →
      ¬ s.aircraft.hasBinCapacity ps.aisleRow.toNat ps.passenger.carryOnSize = true →
      ∃ ps', findPS (s.processWalking pid).passengerStates pid = Option.some ps' ∧
        ps'.state = PassengerState.stowing ∧
        ps'.stowRemaining = (stowTime ps.passenger.carryOnSize : Int) ∧
        (s.processWalking pid).events = s.events ++
          [({ step := s.currentStep, type := EventType.stowStart,
              passengerId := ps.passenger.id, passengerRow := ps.passenger.row,
              passengerColumn := ps.passenger.col,
              data := EventData.atRow ps.aisleRow } : Event),
           ({ step := s.currentStep, type := EventType.binFull,
              passengerId := ps.passenger.id, passengerRow := ps.passenger.row,
              passengerColumn := ps.passenger.col,
              data := EventData.atRow ps.aisleRow } : Event)]) := by
  constructor
  · intro s pid ps hfind hst hrem
    unfold Simulation.processStowing
    simp only [hfind]
    rw [if_pos (show ps.stowRemaining - 1 ≤ 0 by omega)]
    have hfind2 : findPS (updatePS s.passengerStates pid
        (fun q => { q with stowRemaining := ps.stowRemaining - 1 })) pid =
        Option.some ({ ps with stowRemaining := ps.stowRemaining - 1 }) := by
      rw [findPS_updatePS_self s.passengerStates pid
        (fun q => { q with stowRemaining := ps.stowRemaining - 1 }) (fun q => rfl),
        hfind, Option.map_some']
    obtain ⟨ps', hf', hstate', hair'⟩ := startSeating_spec
      (({ s with
        aircraft := (s.aircraft.useBinCapacity ps.aisleRow.toNat
          ps.passenger.carryOnSize).1,
        passengerStates := updatePS s.passengerStates pid
          (fun q => { q with stowRemaining := ps.stowRemaining - 1 }) } :
        Simulation).recordEvent EventType.stowEnd ps.passenger
        (EventData.atRow ps.aisleRow))
      pid ({ ps with stowRemaining := ps.stowRemaining - 1 }) hfind2
    refine ⟨ps', hf', hstate', hair'.trans rfl, fun hcap => (hair'.trans rfl).trans ?_⟩
    rcases useBinCapacity_spec s.aircraft ps.aisleRow.toNat ps.passenger.carryOnSize with
      ⟨hs, hnb⟩ | ⟨cur, _, hc, hle, hs⟩ | ⟨hs, _⟩
    · rw [hs]
      rfl
    · exact absurd (by
        unfold Aircraft.hasBinCapacity
        cases hsz : ps.passenger.carryOnSize <;> simp_all) hcap
    · rw [hs]
      rfl
  · intro s pid ps hfind hst harr hbag hcap
    unfold Simulation.processWalking
    simp only [hfind]
    rw [if_pos harr, if_pos hbag]
    rw [if_pos (show ¬ (({ s with
        passengerStates := updatePS s.passengerStates pid
          (fun q => { q with state := PassengerState.stowing,
                             stowRemaining := (stowTime ps.passenger.carryOnSize : Int) }) } :
        Simulation).recordEvent EventType.stowStart ps.passenger
        (EventData.atRow ps.aisleRow)).aircraft.hasBinCapacity
        ps.aisleRow.toNat ps.passenger.carryOnSize = true from hcap)]
    refine ⟨{ ps with
      state := PassengerState.stowing,
      stowRemaining := (stowTime ps.passenger.carryOnSize : Int) },
      ?_, rfl, rfl, ?_⟩
    · show findPS (updatePS s.passengerStates pid
        (fun q => { q with state := PassengerState.stowing,
                           stowRemaining := (stowTime ps.passenger.carryOnSize : Int) }))
        pid = _
      rw [findPS_updatePS_self s.passengerStates pid
        (fun q => { q with state := PassengerState.stowing,
                           stowRemaining := (stowTime ps.passenger.carryOnSize : Int) })
        (fun q => rfl), hfind, Option.map_some']
    · show (s.events ++ [_]) ++ [_] = _
      rw [List.append_assoc]
      rfl

/-! ### Walk-speed/compliance non-interference -/

theorem findPS_scrub (l : List PState) (pid : Nat) :
    findPS (l.map scrubPS) pid = (findPS l pid).map scrubPS := by
  induction l with
  | nil => rfl
  | cons x xs ih =>
    unfold findPS at *
    by_cases hx : x.passenger.id = pid
    · rw [List.map_cons, List.find?_cons_of_pos _ (by simpa using hx),
        List.find?_cons_of_pos _ (by simpa using hx), Option.map_some']
    · rw [List.map_cons, List.find?_cons_of_neg _ (by simpa using hx),
        List.find?_cons_of_neg _ (by simpa using hx)]
      exact ih

theorem updatePS_scrub (l : List PState) (pid : Nat) (f f' : PState → PState)
    (hcomm : ∀ q, scrubPS (f q) = f' (scrubPS q)) :
    updatePS (l.map scrubPS) pid f' = (updatePS l pid f).map scrubPS := by
  unfold updatePS
  rw [List.map_map, List.map_map]
  refine List.map_congr_left ?_
  intro q hq
  by_cases hid : q.passenger.id = pid
  · simp [Function.comp, hid, (hcomm q).symm]
  · simp [Function.comp, hid]

theorem scrub_recordEvent (s : Simulation) (t : EventType) (p : Passenger)
    (d : EventData) :
    (scrubSim s).recordEvent t p d = scrubSim (s.recordEvent t p d) := rfl

theorem stableInsert_map {α β} (g : α → β) (after : β → β → Bool)
    (after' : α → α → Bool) (hg : ∀ x y, after (g x) (g y) = after' x y)
    (x : α) (l : List α) :
    stableInsert after (g x) (l.map g) = (stableInsert after' x l).map g := by
  induction l with
  | nil => rfl
  | cons y ys ih =>
    rw [List.map_cons]
    unfold stableInsert
    rw [hg x y]
    by_cases h : after' x y = true
    · rw [if_pos h, if_pos h, ih]
      rfl
    · rw [if_neg h, if_neg h]
      rfl

theorem stableSort_map {α β} (g : α → β) (after : β → β → Bool)
    (after' : α → α → Bool) (hg : ∀ x y, after (g x) (g y) = after' x y)
    (l : List α) :
    stableSort after (l.map g) = (stableSort after' l).map g := by
  unfold stableSort
  suffices h : ∀ acc : List α,
      (l.map g).foldl (fun acc x => stableInsert after x acc) (acc.map g) =
      (l.foldl (fun acc x => stableInsert after' x acc) acc).map g by
    simpa using h []
  induction l with
  | nil => intro acc; rfl
  | cons x xs ih =>
    intro acc
    rw [List.map_cons, List.foldl_cons, List.foldl_cons,
      stableInsert_map g after after' hg x acc]
    exact ih (stableInsert after' x acc)

theorem inAisleFilter_scrub (l : List PState) :
    inAisleFilter (l.map scrubPS) = (inAisleFilter l).map scrubPS := by
  unfold inAisleFilter
  rw [List.filter_map]
  rfl

theorem aislePassengersSorted_scrub (s : Simulation) :
    (scrubSim s).aislePassengersSorted = s.aislePassengersSorted := by
  unfold Simulation.aislePassengersSorted
  rw [show (scrubSim s).passengerStates = s.passengerStates.map scrubPS from rfl,
    inAisleFilter_scrub]
  unfold sortAisleDesc
  rw [stableSort_map scrubPS (fun x y => decide (x.aisleRow ≤ y.aisleRow))
    (fun x y => decide (x.aisleRow ≤ y.aisleRow)) (fun x y => rfl), List.map_map]
  rfl

theorem findPS_scrub_none (s : Simulation) (pid : Nat)
    (hfind : findPS s.passengerStates pid = Option.none) :
    findPS (scrubSim s).passengerStates pid = Option.none := by
  rw [show (scrubSim s).passengerStates = s.passengerStates.map scrubPS from rfl,
    findPS_scrub, hfind]
  rfl

theorem findPS_scrub_some (s : Simulation) (pid : Nat) (ps : PState)
    (hfind : findPS s.passengerStates pid = Option.some ps) :
    findPS (scrubSim s).passengerStates pid = Option.some (scrubPS ps) := by
  rw [show (scrubSim s).passengerStates = s.passengerStates.map scrubPS from rfl,
    findPS_scrub, hfind]
  rfl

theorem scrub_startSeating (s : Simulation) (pid : Nat) :
    (scrubSim s).startSeating pid = scrubSim (s.startSeating pid) := by
  unfold Simulation.startSeating
  cases hfind : findPS s.passengerStates pid with
  | none => simp only [hfind, findPS_scrub_none s pid hfind]
  | some ps =>
    simp only [hfind, findPS_scrub_some s pid ps hfind]
    by_cases hb : (s.aircraft.getBlockingSeats ps.passenger.row ps.passenger.col).length > 0
    · rw [if_pos hb, if_pos hb]
      exact congrArg (fun l => Simulation.recordEvent { s with passengerStates := l }
        EventType.shuffleStart ps.passenger (EventData.shuffleInfo ps.aisleRow
          (s.aircraft.getBlockingSeats ps.passenger.row ps.passenger.col)))
        (updatePS_scrub s.passengerStates pid
          (fun q =>
            { q with
              state := PassengerState.shuffling,
              shuffleRemaining := ((s.aircraft.getBlockingSeats ps.passenger.row
                ps.passenger.col).length : Int) * 3 })
          (fun q =>
            { q with
              state := PassengerState.shuffling,
              shuffleRemaining := ((s.aircraft.getBlockingSeats ps.passenger.row
                ps.passenger.col).length : Int) * 3 })
          (fun q => rfl))
    · rw [if_neg hb, if_neg hb]
      exact congrArg (fun l => ({ s with passengerStates := l } : Simulation))
        (updatePS_scrub s.passengerStates pid
          (fun q => { q with state := PassengerState.seating })
          (fun q => { q with state := PassengerState.seating })
          (fun q => rfl))

theorem scrub_processWalking (s : Simulation) (pid : Nat) :
    (scrubSim s).processWalking pid = scrubSim (s.processWalking pid) := by
  unfold Simulation.processWalking
  cases hfind : findPS s.passengerStates pid with
  | none => simp only [hfind, findPS_scrub_none s pid hfind]
  | some ps =>
    simp only [hfind, findPS_scrub_some s pid ps hfind]
    rw [apply_ite scrubSim]
    refine if_congr Iff.rfl ?_ ?_
    · rw [apply_ite scrubSim]
      refine if_congr Iff.rfl ?_ ?_
      · rw [apply_ite scrubSim]
        refine if_congr Iff.rfl ?_ ?_
        · exact congrArg (fun l => Simulation.recordEvent (Simulation.recordEvent
            { s with passengerStates := l } EventType.stowStart ps.passenger
            (EventData.atRow ps.aisleRow)) EventType.binFull ps.passenger
            (EventData.atRow ps.aisleRow))
            (updatePS_scrub s.passengerStates pid
              (fun q =>
                { q with
                  state := PassengerState.stowing,
                  stowRemaining := (stowTime ps.passenger.carryOnSize : Int) })
              (fun q =>
                { q with
                  state := PassengerState.stowing,
                  stowRemaining := (stowTime ps.passenger.carryOnSize : Int) })
              (fun q => rfl))
        · exact congrArg (fun l => Simulation.recordEvent
            { s with passengerStates := l } EventType.stowStart ps.passenger
            (EventData.atRow ps.aisleRow))
            (updatePS_scrub s.passengerStates pid
              (fun q =>
                { q with
                  state := PassengerState.stowing,
                  stowRemaining := (stowTime ps.passenger.carryOnSize : Int) })
              (fun q =>
                { q with
                  state := PassengerState.stowing,
                  stowRemaining := (stowTime ps.passenger.carryOnSize : Int) })
              (fun q => rfl))
      · exact scrub_startSeating s pid
    · rw [apply_ite scrubSim]
      refine if_congr Iff.rfl ?_ ?_
      · exact congrArg (fun l => Simulation.recordEvent
          { s with
            aircraft := (s.aircraft.removeFromAisle ps.aisleRow.toNat).placeInAisle
              ps.passenger.id (ps.aisleRow + 1).toNat,
            passengerStates := l }
          EventType.move ps.passenger (EventData.moved ps.aisleRow (ps.aisleRow + 1)))
          (updatePS_scrub s.passengerStates pid
            (fun q => { q with aisleRow := ps.aisleRow + 1 })
            (fun q => { q with aisleRow := ps.aisleRow + 1 })
            (fun q => rfl))
      · exact congrArg (fun l => Simulation.recordEvent
          { s with passengerStates := l } EventType.aisleBlocked ps.passenger
          (EventData.blockedAt ps.aisleRow (ps.aisleRow + 1)))
          (updatePS_scrub s.passengerStates pid
            (fun q => { q with waitTime := q.waitTime + 1 })
            (fun q => { q with waitTime := q.waitTime + 1 })
            (fun q => rfl))

theorem scrub_processStowing (s : Simulation) (pid : Nat) :
    (scrubSim s).processStowing pid = scrubSim (s.processStowing pid) := by
  unfold Simulation.processStowing
  cases hfind : findPS s.passengerStates pid with
  | none => simp only [hfind, findPS_scrub_none s pid hfind]
  | some ps =>
    simp only [hfind, findPS_scrub_some s pid ps hfind]
    rw [apply_ite scrubSim]
    refine if_congr Iff.rfl ?_ ?_
    · refine Eq.trans (congrArg (fun l => Simulation.startSeating
        (Simulation.recordEvent
          { s with
            aircraft := (s.aircraft.useBinCapacity ps.aisleRow.toNat
              ps.passenger.carryOnSize).1,
            passengerStates := l }
          EventType.stowEnd ps.passenger (EventData.atRow ps.aisleRow)) pid)
        (updatePS_scrub s.passengerStates pid
          (fun q => { q with stowRemaining := ps.stowRemaining - 1 })
          (fun q => { q with stowRemaining := ps.stowRemaining - 1 })
          (fun q => rfl))) ?_
      exact scrub_startSeating (Simulation.recordEvent
        { s with
          aircraft := (s.aircraft.useBinCapacity ps.aisleRow.toNat
            ps.passenger.carryOnSize).1,
          passengerStates := updatePS s.passengerStates pid
            (fun q => { q with stowRemaining := ps.stowRemaining - 1 }) }
        EventType.stowEnd ps.passenger (EventData.atRow ps.aisleRow)) pid
    · exact congrArg (fun l => ({ s with passengerStates := l } : Simulation))
        (updatePS_scrub s.passengerStates pid
          (fun q =>
            { q with
              stowRemaining := ps.stowRemaining - 1,
              waitTime := q.waitTime + 1 })
          (fun q =>
            { q with
              stowRemaining := ps.stowRemaining - 1,
              waitTime := q.waitTime + 1 })
          (fun q => rfl))

theorem scrub_processShuffling (s : Simulation) (pid : Nat) :
    (scrubSim s).processShuffling pid = scrubSim (s.processShuffling pid) := by
  unfold Simulation.processShuffling
  cases hfind : findPS s.passengerStates pid with
  | none => simp only [hfind, findPS_scrub_none s pid hfind]
  | some ps =>
    simp only [hfind, findPS_scrub_some s pid ps hfind]
    rw [apply_ite scrubSim]
    refine if_congr Iff.rfl ?_ ?_
    · refine Eq.trans (congrArg (fun l =>
        { Simulation.recordEvent { s with passengerStates := l }
            EventType.shuffleEnd ps.passenger (EventData.atRow ps.aisleRow) with
          passengerStates := updatePS
            (Simulation.recordEvent { s with passengerStates := l }
              EventType.shuffleEnd ps.passenger
              (EventData.atRow ps.aisleRow)).passengerStates pid
            (fun q => { q with state := PassengerState.seating }) })
        (updatePS_scrub s.passengerStates pid
          (fun q =>
            { q with
              shuffleRemaining := ps.shuffleRemaining - 1,
              waitTime := q.waitTime + 1 })
          (fun q =>
            { q with
              shuffleRemaining := ps.shuffleRemaining - 1,
              waitTime := q.waitTime + 1 })
          (fun q => rfl))) ?_
      exact congrArg (fun l =>
        { Simulation.recordEvent
            { s with
              passengerStates := updatePS s.passengerStates pid
                (fun q =>
                  { q with
                    shuffleRemaining := ps.shuffleRemaining - 1,
                    waitTime := q.waitTime + 1 }) }
            EventType.shuffleEnd ps.passenger (EventData.atRow ps.aisleRow) with
          passengerStates := l })
        (updatePS_scrub (updatePS s.passengerStates pid
          (fun q =>
            { q with
              shuffleRemaining := ps.shuffleRemaining - 1,
              waitTime := q.waitTime + 1 })) pid
          (fun q => { q with state := PassengerState.seating })
          (fun q => { q with state := PassengerState.seating })
          (fun q => rfl))
    · exact congrArg (fun l => ({ s with passengerStates := l } : Simulation))
        (updatePS_scrub s.passengerStates pid
          (fun q =>
            { q with
              shuffleRemaining := ps.shuffleRemaining - 1,
              waitTime := q.waitTime + 1 })
          (fun q =>
            { q with
              shuffleRemaining := ps.shuffleRemaining - 1,
              waitTime := q.waitTime + 1 })
          (fun q => rfl))

theorem scrub_processSeating (s : Simulation) (pid : Nat) :
    (scrubSim s).processSeating pid = scrubSim (s.processSeating pid) := by
  unfold Simulation.processSeating
  cases hfind : findPS s.passengerStates pid with
  | none => simp only [hfind, findPS_scrub_none s pid hfind]
  | some ps =>
    simp only [hfind, findPS_scrub_some s pid ps hfind]
    exact congrArg (fun l => Simulation.recordEvent
      { s with
        aircraft := (s.aircraft.removeFromAisle ps.aisleRow.toNat).seatPassenger
          ps.passenger,
        passengerStates := l }
      EventType.seat ps.passenger (EventData.seatPos ps.passenger.row ps.passenger.col))
      (updatePS_scrub s.passengerStates pid
        (fun q =>
          { q with
            state := PassengerState.seated,
            seatedAt := (s.currentStep : Int) })
        (fun q =>
          { q with
            state := PassengerState.seated,
            seatedAt := (s.currentStep : Int) })
        (fun q => rfl))

theorem scrub_processPassengerInAisle (s : Simulation) (pid : Nat) :
    (scrubSim s).processPassengerInAisle pid = scrubSim (s.processPassengerInAisle pid) := by
  unfold Simulation.processPassengerInAisle
  cases hfind : findPS s.passengerStates pid with
  | none => simp only [hfind, findPS_scrub_none s pid hfind]
  | some ps =>
    simp only [hfind, findPS_scrub_some s pid ps hfind]
    cases hst : ps.state
    case waiting => simp only [hst]
    case walking => simp only [hst]; exact scrub_processWalking s pid
    case stowing => simp only [hst]; exact scrub_processStowing s pid
    case shuffling => simp only [hst]; exact scrub_processShuffling s pid
    case seating => simp only [hst]; exact scrub_processSeating s pid
    case seated => simp only [hst]

theorem scrub_tryAdd (s : Simulation) :
    (scrubSim s).tryAddFromQueue = scrubSim s.tryAddFromQueue := by
  unfold Simulation.tryAddFromQueue
  cases hq : s.queue with
  | nil => simp only [show (scrubSim s).queue = s.queue from rfl, hq]
  | cons pid rest =>
    simp only [show (scrubSim s).queue = s.queue from rfl, hq]
    rw [apply_ite scrubSim]
    refine if_congr Iff.rfl rfl ?_
    cases hfind : findPS s.passengerStates pid with
    | none => simp only [hfind, findPS_scrub_none s pid hfind]
    | some ps =>
      simp only [hfind, findPS_scrub_some s pid ps hfind]
      exact congrArg (fun l => Simulation.recordEvent
        { s with
          queue := rest,
          aircraft := s.aircraft.placeInAisle pid 0,
          passengerStates := l }
        EventType.enter ps.passenger EventData.noData)
        (updatePS_scrub s.passengerStates pid
          (fun q =>
            { q with
              state := PassengerState.walking,
              aisleRow := 0,
              enteredAt := (s.currentStep : Int) })
          (fun q =>
            { q with
              state := PassengerState.walking,
              aisleRow := 0,
              enteredAt := (s.currentStep : Int) })
          (fun q => rfl))

theorem scrub_checkCompletion (s : Simulation) :
    (scrubSim s).checkCompletion = scrubSim s.checkCompletion := by
  unfold Simulation.checkCompletion
  rw [apply_ite scrubSim]
  refine if_congr ?_ rfl rfl
  rw [show (scrubSim s).passengerStates = s.passengerStates.map scrubPS from rfl,
    List.all_map]
  exact Iff.rfl

theorem scrub_foldProcess (L : List Nat) (s : Simulation) :
    L.foldl (fun t pid => t.processPassengerInAisle pid) (scrubSim s) =
    scrubSim (L.foldl (fun t pid => t.processPassengerInAisle pid) s) := by
  induction L generalizing s with
  | nil => rfl
  | cons pid rest ih =>
    simp only [List.foldl_cons]
    rw [scrub_processPassengerInAisle]
    exact ih (s.processPassengerInAisle pid)

theorem scrub_stepAisle (s : Simulation) :
    (scrubSim s).stepAisle = scrubSim s.stepAisle := by
  show (scrubSim { s with currentStep := s.currentStep + 1 }).aislePassengersSorted.foldl
      (fun t pid => t.processPassengerInAisle pid)
      (scrubSim { s with currentStep := s.currentStep + 1 }) =
    scrubSim (({ s with currentStep := s.currentStep + 1 } :
        Simulation).aislePassengersSorted.foldl
      (fun t pid => t.processPassengerInAisle pid)
      { s with currentStep := s.currentStep + 1 })
  rw [aislePassengersSorted_scrub]
  exact scrub_foldProcess _ _

theorem scrub_step (s : Simulation) : (scrubSim s).step = scrubSim s.step := by
  unfold Simulation.step
  rw [apply_ite scrubSim]
  refine if_congr Iff.rfl rfl ?_
  rw [scrub_stepAisle, scrub_tryAdd, scrub_checkCompletion]

theorem scrub_stepN (s : Simulation) (n : Nat) :
    (scrubSim s).stepN n = scrubSim (s.stepN n) := by
  induction n with
  | zero => rfl
  | succ n ih =>
    show ((scrubSim s).stepN n).step = scrubSim ((s.stepN n).step)
    rw [ih, scrub_step]

theorem scrub_runLoop (m fuel : Nat) (s : Simulation) :
    Simulation.runLoop m fuel (scrubSim s) = scrubSim (Simulation.runLoop m fuel s) := by
  induction fuel generalizing s with
  | zero => rfl
  | succ fuel ih =>
    simp only [Simulation.runLoop]
    rw [apply_ite scrubSim]
    refine if_congr Iff.rfl ?_ rfl
    rw [scrub_step]
    exact ih s.step

theorem scrubSim_init (a : Aircraft) (l : List Passenger) (order : List Nat) :
    scrubSim ((Simulation.init a l).setBoardingOrder order) =
    (Simulation.init a (l.map scrubPassenger)).setBoardingOrder order := by
  show ({ aircraft := a.reset, currentStep := 0, isComplete := false, events := [],
          passengerStates := (l.map initPState).map scrubPS,
          queue := order } : Simulation) =
    ({ aircraft := a.reset, currentStep := 0, isComplete := false, events := [],
       passengerStates := (l.map scrubPassenger).map initPState,
       queue := order } : Simulation)
  rw [List.map_map, List.map_map]
  rfl

theorem scrubSim_getSnapshot (s : Simulation) :
    (scrubSim s).getSnapshot = s.getSnapshot := by
  unfold Simulation.getSnapshot
  rw [show (scrubSim s).passengerStates = s.passengerStates.map scrubPS from rfl,
    List.filter_map, List.filter_map, List.filter_map, List.map_map, List.map_map,
    List.map_map, List.length_map]
  rfl

theorem findPS_processWalking_other (s : Simulation) (pid pid' : Nat) (hne : pid ≠ pid') :
    findPS (s.processWalking pid').passengerStates pid = findPS s.passengerStates pid := by
  unfold Simulation.processWalking
  cases hfind : findPS s.passengerStates pid' with
  | none => rfl
  | some ps =>
    simp only [hfind]
    by_cases harr : ps.aisleRow = (ps.passenger.row : Int)
    · rw [if_pos harr]
      by_cases hbag : ps.passenger.carryOnSize ≠ CarryOnSize.noBag
      · rw [if_pos hbag]
        split
        · exact findPS_updatePS_ne _ _ _ _ (fun q => rfl) hne
        · exact findPS_updatePS_ne _ _ _ _ (fun q => rfl) hne
      · rw [if_neg hbag]
        exact findPS_startSeating_other s pid pid' hne
    · rw [if_neg harr]
      split
      · exact findPS_updatePS_ne _ _ _ _ (fun q => rfl) hne
      · exact findPS_updatePS_ne _ _ _ _ (fun q => rfl) hne

theorem findPS_processStowing_other (s : Simulation) (pid pid' : Nat) (hne : pid ≠ pid') :
    findPS (s.processStowing pid').passengerStates pid = findPS s.passengerStates pid := by
  unfold Simulation.processStowing
  cases hfind : findPS s.passengerStates pid' with
  | none => rfl
  | some ps =>
    simp only [hfind]
    split
    · rw [findPS_startSeating_other _ pid pid' hne]
      exact findPS_updatePS_ne _ _ _ _ (fun q => rfl) hne
    · exact findPS_updatePS_ne _ _ _ _ (fun q => rfl) hne

theorem findPS_processShuffling_other (s : Simulation) (pid pid' : Nat) (hne : pid ≠ pid') :
    findPS (s.processShuffling pid').passengerStates pid = findPS s.passengerStates pid := by
  unfold Simulation.processShuffling
  cases hfind : findPS s.passengerStates pid' with
  | none => rfl
  | some ps =>
    simp only [hfind]
    split
    · exact Eq.trans (findPS_updatePS_ne _ _ _ _ (fun q => rfl) hne)
        (findPS_updatePS_ne _ _ _ _ (fun q => rfl) hne)
    · exact findPS_updatePS_ne _ _ _ _ (fun q => rfl) hne

theorem findPS_processSeating_other (s : Simulation) (pid pid' : Nat) (hne : pid ≠ pid') :
    findPS (s.processSeating pid').passengerStates pid = findPS s.passengerStates pid := by
  unfold Simulation.processSeating
  cases hfind : findPS s.passengerStates pid' with
  | none => rfl
  | some ps =>
    simp only [hfind]
    exact findPS_updatePS_ne _ _ _ _ (fun q => rfl) hne

theorem findPS_processPassengerInAisle_other (s : Simulation) (pid pid' : Nat)
    (hne : pid ≠ pid') :
    findPS (s.processPassengerInAisle pid').passengerStates pid =
      findPS s.passengerStates pid := by
  unfold Simulation.processPassengerInAisle
  cases hfind : findPS s.passengerStates pid' with
  | none => rfl
  | some ps =>
    simp only [hfind]
    cases hst : ps.state
    case waiting => rfl
    case walking => exact findPS_processWalking_other s pid pid' hne
    case stowing => exact findPS_processStowing_other s pid pid' hne
    case shuffling => exact findPS_processShuffling_other s pid pid' hne
    case seating => exact findPS_processSeating_other s pid pid' hne
    case seated => rfl

theorem aisleRow_startSeating_self (s : Simulation) (pid : Nat) (q : PState)
    (hfind : findPS s.passengerStates pid = Option.some q) :
    ∃ q', findPS (s.startSeating pid).passengerStates pid = Option.some q' ∧
      q'.aisleRow = q.aisleRow := by
  unfold Simulation.startSeating
  simp only [hfind]
  by_cases hb : (s.aircraft.getBlockingSeats q.passenger.row q.passenger.col).length > 0
  · rw [if_pos hb]
    have h1 := findPS_updatePS_self s.passengerStates pid
      (fun x =>
        { x with
          state := PassengerState.shuffling,
          shuffleRemaining := ((s.aircraft.getBlockingSeats q.passenger.row
            q.passenger.col).length : Int) * 3 })
      (fun x => rfl)
    rw [hfind] at h1
    exact ⟨_, h1, rfl⟩
  · rw [if_neg hb]
    have h1 := findPS_updatePS_self s.passengerStates pid
      (fun x => { x with state := PassengerState.seating })
      (fun x => rfl)
    rw [hfind] at h1
    exact ⟨_, h1, rfl⟩

theorem aisleRow_processWalking_self (s : Simulation) (pid : Nat) (q : PState)
    (hfind : findPS s.passengerStates pid = Option.some q) :
    ∃ q', findPS (s.processWalking pid).passengerStates pid = Option.some q' ∧
      q'.aisleRow ≤ q.aisleRow + 1 := by
  unfold Simulation.processWalking
  simp only [hfind]
  by_cases harr : q.aisleRow = (q.passenger.row : Int)
  · rw [if_pos harr]
    by_cases hbag : q.passenger.carryOnSize ≠ CarryOnSize.noBag
    · rw [if_pos hbag]
      have h1 := findPS_updatePS_self s.passengerStates pid
        (fun x =>
          { x with
            state := PassengerState.stowing,
            stowRemaining := (stowTime q.passenger.carryOnSize : Int) })
        (fun x => rfl)
      rw [hfind] at h1
      split
      · refine ⟨_, h1, ?_⟩
        show q.aisleRow ≤ q.aisleRow + 1
        omega
      · refine ⟨_, h1, ?_⟩
        show q.aisleRow ≤ q.aisleRow + 1
        omega
    · rw [if_neg hbag]
      obtain ⟨q', hq', he⟩ := aisleRow_startSeating_self s pid q hfind
      refine ⟨q', hq', ?_⟩
      rw [he]
      omega
  · rw [if_neg harr]
    split
    · have h1 := findPS_updatePS_self s.passengerStates pid
        (fun x => { x with aisleRow := q.aisleRow + 1 })
        (fun x => rfl)
      rw [hfind] at h1
      refine ⟨_, h1, ?_⟩
      show q.aisleRow + 1 ≤ q.aisleRow + 1
      omega
    · have h1 := findPS_updatePS_self s.passengerStates pid
        (fun x => { x with waitTime := x.waitTime + 1 })
        (fun x => rfl)
      rw [hfind] at h1
      refine ⟨_, h1, ?_⟩
      show q.aisleRow ≤ q.aisleRow + 1
      omega

theorem aisleRow_processStowing_self (s : Simulation) (pid : Nat) (q : PState)
    (hfind : findPS s.passengerStates pid = Option.some q) :
    ∃ q', findPS (s.processStowing pid).passengerStates pid = Option.some q' ∧
      q'.aisleRow ≤ q.aisleRow + 1 := by
  unfold Simulation.processStowing
  simp only [hfind]
  split
  · have h1 := findPS_updatePS_self s.passengerStates pid
      (fun x => { x with stowRemaining := q.stowRemaining - 1 })
      (fun x => rfl)
    rw [hfind] at h1
    obtain ⟨q', hq', he⟩ := aisleRow_startSeating_self
      (Simulation.recordEvent
        { s with
          aircraft := (s.aircraft.useBinCapacity q.aisleRow.toNat
            q.passenger.carryOnSize).1,
          passengerStates := updatePS s.passengerStates pid
            (fun x => { x with stowRemaining := q.stowRemaining - 1 }) }
        EventType.stowEnd q.passenger (EventData.atRow q.aisleRow)) pid _ h1
    refine ⟨q', hq', ?_⟩
    rw [he]
    show q.aisleRow ≤ q.aisleRow + 1
    omega
  · have h1 := findPS_updatePS_self s.passengerStates pid
      (fun x =>
        { x with
          stowRemaining := q.stowRemaining - 1,
          waitTime := x.waitTime + 1 })
      (fun x => rfl)
    rw [hfind] at h1
    refine ⟨_, h1, ?_⟩
    show q.aisleRow ≤ q.aisleRow + 1
    omega

theorem aisleRow_processShuffling_self (s : Simulation) (pid : Nat) (q : PState)
    (hfind : findPS s.passengerStates pid = Option.some q) :
    ∃ q', findPS (s.processShuffling pid).passengerStates pid = Option.some q' ∧
      q'.aisleRow ≤ q.aisleRow + 1 := by
  unfold Simulation.processShuffling
  simp only [hfind]
  split
  · have h1 := findPS_updatePS_self s.passengerStates pid
      (fun x =>
        { x with
          shuffleRemaining := q.shuffleRemaining - 1,
          waitTime := x.waitTime + 1 })
      (fun x => rfl)
    rw [hfind] at h1
    have h2 := findPS_updatePS_self
      (updatePS s.passengerStates pid
        (fun x =>
          { x with
            shuffleRemaining := q.shuffleRemaining - 1,
            waitTime := x.waitTime + 1 })) pid
      (fun x => { x with state := PassengerState.seating })
      (fun x => rfl)
    rw [h1] at h2
    refine ⟨_, h2, ?_⟩
    show q.aisleRow ≤ q.aisleRow + 1
    omega
  · have h1 := findPS_updatePS_self s.passengerStates pid
      (fun x =>
        { x with
          shuffleRemaining := q.shuffleRemaining - 1,
          waitTime := x.waitTime + 1 })
      (fun x => rfl)
    rw [hfind] at h1
    refine ⟨_, h1, ?_⟩
    show q.aisleRow ≤ q.aisleRow + 1
    omega

theorem aisleRow_processSeating_self (s : Simulation) (pid : Nat) (q : PState)
    (hfind : findPS s.passengerStates pid = Option.some q) :
    ∃ q', findPS (s.processSeating pid).passengerStates pid = Option.some q' ∧
      q'.aisleRow ≤ q.aisleRow + 1 := by
  unfold Simulation.processSeating
  simp only [hfind]
  have h1 := findPS_updatePS_self s.passengerStates pid
    (fun x =>
      { x with
        state := PassengerState.seated,
        seatedAt := (s.currentStep : Int) })
    (fun x => rfl)
  rw [hfind] at h1
  refine ⟨_, h1, ?_⟩
  show q.aisleRow ≤ q.aisleRow + 1
  omega

theorem aisleRow_processPassengerInAisle_self (s : Simulation) (pid : Nat) (q : PState)
    (hfind : findPS s.passengerStates pid = Option.some q) :
    ∃ q', findPS (s.processPassengerInAisle pid).passengerStates pid = Option.some q' ∧
      q'.aisleRow ≤ q.aisleRow + 1 := by
  unfold Simulation.processPassengerInAisle
  simp only [hfind]
  cases hst : q.state
  case waiting => exact ⟨q, hfind, by omega⟩
  case walking => exact aisleRow_processWalking_self s pid q hfind
  case stowing => exact aisleRow_processStowing_self s pid q hfind
  case shuffling => exact aisleRow_processShuffling_self s pid q hfind
  case seating => exact aisleRow_processSeating_self s pid q hfind
  case seated => exact ⟨q, hfind, by omega⟩

theorem fold_aisleRow_bound (L : List Nat) (hnd : L.Nodup) (s : Simulation) (pid : Nat)
    (q : PState) (hfind : findPS s.passengerStates pid = Option.some q) :
    ∃ q', findPS (L.foldl (fun t p => t.processPassengerInAisle p) s).passengerStates pid =
        Option.some q' ∧ q'.aisleRow ≤ q.aisleRow + 1 ∧ (pid ∉ L → q' = q) := by
  induction L generalizing s q with
  | nil => exact ⟨q, hfind, by omega, fun _ => rfl⟩
  | cons p rest ih =>
    simp only [List.foldl_cons]
    by_cases hp : pid = p
    · subst hp
      obtain ⟨q1, hq1, hb1⟩ := aisleRow_processPassengerInAisle_self s pid q hfind
      have hnotin : pid ∉ rest := (List.nodup_cons.mp hnd).1
      obtain ⟨q', hq', hb', heq⟩ := ih (List.nodup_cons.mp hnd).2
        (s.processPassengerInAisle pid) q1 hq1
      refine ⟨q', hq', ?_, fun hmem => absurd (List.mem_cons_self _ _) hmem⟩
      rw [heq hnotin]
      exact hb1
    · obtain ⟨q', hq', hb', heq⟩ := ih (List.nodup_cons.mp hnd).2
        (s.processPassengerInAisle p) q
        ((findPS_processPassengerInAisle_other s pid p hp).trans hfind)
      exact ⟨q', hq', hb', fun hmem => heq fun h => hmem (List.mem_cons_of_mem _ h)⟩

theorem pS_checkCompletion (t : Simulation) :
    t.checkCompletion.passengerStates = t.passengerStates := by
  unfold Simulation.checkCompletion
  split <;> rfl

theorem aisleRow_tryAdd (t : Simulation) (hInvT : Inv t) (pid : Nat) (q1 : PState)
    (hfind : findPS t.passengerStates pid = Option.some q1) :
    ∃ q2, findPS t.tryAddFromQueue.passengerStates pid = Option.some q2 ∧
      (q2 = q1 ∨ (q2.aisleRow = 0 ∧ q1.aisleRow = -1)) := by
  rcases tryAdd_spec t hInvT with ⟨-, heq⟩ | ⟨pidA, rest, hq, ⟨-, heq⟩ | ⟨-, qA, hfindA, -, heq⟩⟩
  · rw [heq]
    exact ⟨q1, hfind, Or.inl rfl⟩
  · rw [heq]
    exact ⟨q1, hfind, Or.inl rfl⟩
  · rw [heq]
    by_cases hpid : pid = pidA
    · subst hpid
      obtain ⟨r, hrmem, hrid, hrw⟩ := hInvT.2.2.2.2.1 pid
        (by rw [hq]; exact List.mem_cons_self _ _)
      have hfr : findPS t.passengerStates pid = Option.some r :=
        findPS_eq_some_of_mem hInvT.1 hrmem hrid
      have hrq1 : r = q1 := Option.some.inj (hfr.symm.trans hfind)
      have har : q1.aisleRow = -1 := by
        rw [← hrq1]
        exact (hInvT.2.2.2.2.2.2 r hrmem).2 hrw
      have h1 := findPS_updatePS_self t.passengerStates pid
        (fun x =>
          { x with
            state := PassengerState.walking,
            aisleRow := 0,
            enteredAt := (t.currentStep : Int) })
        (fun x => rfl)
      rw [hfind] at h1
      refine ⟨_, h1, Or.inr ⟨?_, har⟩⟩
      rfl
    · have h1 := findPS_updatePS_ne t.passengerStates pid pidA
        (fun x =>
          { x with
            state := PassengerState.walking,
            aisleRow := 0,
            enteredAt := (t.currentStep : Int) })
        (fun x => rfl) hpid
      exact ⟨q1, h1.trans hfind, Or.inl rfl⟩

theorem step_aisleRow_bound (s : Simulation) (pid : Nat) (q q' : PState) (hInv : Inv s)
    (hfind : findPS s.passengerStates pid = Option.some q)
    (hfind' : findPS s.step.passengerStates pid = Option.some q') :
    q'.aisleRow ≤ q.aisleRow + 1 := by
  unfold Simulation.step at hfind'
  by_cases hc : s.isComplete = true
  · rw [if_pos hc, hfind] at hfind'
    rw [← Option.some.inj hfind']
    omega
  · rw [if_neg hc, pS_checkCompletion] at hfind'
    have hnd : (Simulation.aislePassengersSorted
        { s with currentStep := s.currentStep + 1 }).Nodup := by
      unfold Simulation.aislePassengersSorted
      have hsub : ((inAisleFilter s.passengerStates).map fun ps =>
          ps.passenger.id).Nodup :=
        hInv.1.sublist ((List.filter_sublist _).map _)
      exact (((stableSort_perm (fun x y => decide (x.aisleRow ≤ y.aisleRow))
        (inAisleFilter s.passengerStates)).map
          (fun ps => ps.passenger.id)).symm.nodup_iff).mp hsub
    obtain ⟨q1, hq1, hb1, -⟩ := fold_aisleRow_bound _ hnd
      { s with currentStep := s.currentStep + 1 } pid q hfind
    have hInv1 : Inv s.stepAisle := Inv_stepAisle s hInv
    obtain ⟨q2, hq2, hd2⟩ := aisleRow_tryAdd s.stepAisle hInv1 pid q1 hq1
    have hq'q2 : q' = q2 := (Option.some.inj (hq2.symm.trans hfind')).symm
    rcases hd2 with heq1 | ⟨h0, hm1⟩
    · rw [hq'q2, heq1]
      exact hb1
    · have hmem : q ∈ s.passengerStates := (findPS_eq_some hfind).1
      have hge : -1 ≤ q.aisleRow := (hInv.2.2.2.2.2.2 q hmem).1
      rw [hq'q2, h0]
      omega

/-- C10: the simulation outcome does not depend on the passengers' walk
speed and compliance attributes (the simulator never reads them): for any
two passenger lists equal after normalizing `walkSpeed` and `compliance`
(so agreeing on ids, seats and carry-on sizes) and the same boarding
order, any number of ticks yields identical event logs, snapshots and
completion flags, and running to completion yields the same step count;
moreover under the simulation invariant every WALKING passenger advances
at most one aisle cell per tick, regardless of its speed class. -/
theorem speed_compliance_noninterference :
    (∀ (a : Aircraft) (l1 l2 : List Passenger) (order : List Nat) (n maxSteps : Nat),
      l1.map scrubPassenger = l2.map scrubPassenger →
      (((Simulation.init a l1).setBoardingOrder order).stepN n).events =
        (((Simulation.init a l2).setBoardingOrder order).stepN n).events ∧
      (((Simulation.init a l1).setBoardingOrder order).stepN n).getSnapshot =
        (((Simulation.init a l2).setBoardingOrder order).stepN n).getSnapshot ∧
      (((Simulation.init a l1).setBoardingOrder order).stepN n).isComplete =
        (((Simulation.init a l2).setBoardingOrder order).stepN n).isComplete ∧
      (((Simulation.init a l1).setBoardingOrder order).runToCompletion
          maxSteps).currentStep =
        (((Simulation.init a l2).setBoardingOrder order).runToCompletion
          maxSteps).currentStep) ∧
    (∀ (s : Simulation) (pid : Nat) (q q' : PState), Inv s →
      q.state = PassengerState.walking →
      findPS s.passengerStates pid = Option.some q →
      findPS s.step.passengerStates pid = Option.some q' →
      q'.aisleRow ≤ q.aisleRow + 1) := by
  constructor
  · intro a l1 l2 order n maxSteps h
    have hscrub : scrubSim ((Simulation.init a l1).setBoardingOrder order) =
        scrubSim ((Simulation.init a l2).setBoardingOrder order) := by
      rw [scrubSim_init, scrubSim_init, h]
    have hstep : scrubSim (((Simulation.init a l1).setBoardingOrder order).stepN n) =
        scrubSim (((Simulation.init a l2).setBoardingOrder order).stepN n) := by
      rw [← scrub_stepN, ← scrub_stepN, hscrub]
    have hrun : scrubSim (((Simulation.init a l1).setBoardingOrder
          order).runToCompletion maxSteps) =
        scrubSim (((Simulation.init a l2).setBoardingOrder
          order).runToCompletion maxSteps) := by
      unfold Simulation.runToCompletion
      rw [← scrub_runLoop, ← scrub_runLoop, hscrub]
    have hev := congrArg Simulation.events hstep
    have hic := congrArg Simulation.isComplete hstep
    have hcs := congrArg Simulation.currentStep hrun
    refine ⟨hev, ?_, hic, hcs⟩
    calc (((Simulation.init a l1).setBoardingOrder order).stepN n).getSnapshot
        = (scrubSim (((Simulation.init a l1).setBoardingOrder
            order).stepN n)).getSnapshot := (scrubSim_getSnapshot _).symm
      _ = (scrubSim (((Simulation.init a l2).setBoardingOrder
            order).stepN n)).getSnapshot := congrArg Simulation.getSnapshot hstep
      _ = (((Simulation.init a l2).setBoardingOrder order).stepN n).getSnapshot :=
            scrubSim_getSnapshot _
  · intro s pid q q' hInv hwalk hfind hfind'
    exact step_aisleRow_bound s pid q q' hInv hfind hfind'

theorem speed_compliance_noninterference_witness :
    [speedVariantP1, scenarioP2].map scrubPassenger =
      [scenarioP1, scenarioP2].map scrubPassenger ∧
    (((Simulation.init scenarioAircraft
        [speedVariantP1, scenarioP2]).setBoardingOrder [1, 2]).stepN 3).events =
      (((Simulation.init scenarioAircraft
        [scenarioP1, scenarioP2]).setBoardingOrder [1, 2]).stepN 3).events ∧
    Inv (scenarioSim.stepN 1) ∧
    walkWitnessPS.state = PassengerState.walking ∧
    findPS (scenarioSim.stepN 1).passengerStates 1 = Option.some walkWitnessPS ∧
    findPS (scenarioSim.stepN 1).step.passengerStates 1 =
      Option.some walkWitnessPS1 ∧
    walkWitnessPS1.aisleRow ≤ walkWitnessPS.aisleRow + 1 :=
  ⟨by decide,
   (speed_compliance_noninterference.1 scenarioAircraft
     [speedVariantP1, scenarioP2] [scenarioP1, scenarioP2] [1, 2] 3 10 (by decide)).1,
   by decide, by decide, by decide, by decide,
   speed_compliance_noninterference.2 (scenarioSim.stepN 1) 1
     walkWitnessPS walkWitnessPS1 (by decide) (by decide) (by decide) (by decide)⟩

theorem step_descending_order_single_admission_witness :
    Inv (scenarioSim.stepN 1) ∧ (scenarioSim.stepN 1).isComplete = false ∧
    (sortAisleDesc (inAisleFilter (scenarioSim.stepN 1).passengerStates)).Pairwise
      (fun x y => y.aisleRow < x.aisleRow) :=
  ⟨by decide, by decide,
   (step_descending_order_single_admission (scenarioSim.stepN 1)
     (by decide) (by decide)).1⟩

theorem boarding_order_desc_priority_ties_asc_id_witness :
    ([scenarioP1, scenarioP2].Pairwise fun p q => p.id < q.id) ∧
    runAlgorithm (fun p => (p.row : ℚ)) [scenarioP1, scenarioP2] =
      (sortPriorityDesc (withPriority (fun p => (p.row : ℚ))
        [scenarioP1, scenarioP2])).map Prod.fst :=
  ⟨by decide,
   (boarding_order_desc_priority_ties_asc_id (fun p => (p.row : ℚ))
     [scenarioP1, scenarioP2] (by decide)).1⟩

theorem occupancy_invariant_witness :
    ([scenarioP1, scenarioP2].map fun p => p.id).Nodup ∧
    ([scenarioP1, scenarioP2].map fun p => (p.row, p.col)).Nodup ∧
    ([1, 2] : List Nat).Nodup ∧
    (((Simulation.init scenarioAircraft [scenarioP1, scenarioP2]).setBoardingOrder
        [1, 2]).stepN 2).passengerStates.Pairwise (fun x y =>
      (isInAisleStateB x.state = true → isInAisleStateB y.state = true →
        x.aisleRow ≠ y.aisleRow) ∧
      (x.state = PassengerState.seated → y.state = PassengerState.seated →
        (x.passenger.row, x.passenger.col) ≠
          (y.passenger.row, y.passenger.col))) :=
  ⟨by decide, by decide, by decide,
   occupancy_invariant scenarioAircraft [scenarioP1, scenarioP2] [1, 2] 2
     (by decide) (by decide) (by decide) (by decide)⟩

theorem bin_capacity_nonneg_monotone_reset_witness :
    (0 : Int) ≤ 6 ∧
    (applyOp (applyOps (Aircraft.create 1 6 3 6)
        [LayoutOp.consume 1 CarryOnSize.small]) LayoutOp.reset).binCapacity =
      List.replicate 1 (6 : Int) :=
  ⟨by decide,
   (bin_capacity_nonneg_monotone_reset 1 6 3 6 (by decide)
     (Aircraft.create 1 6 3 6) rfl).2.2.1 [LayoutOp.consume 1 CarryOnSize.small]⟩

theorem stow_best_effort_and_bin_full_logged_witness :
    findPS stowingWitnessSim.passengerStates 1 = Option.some stowingWitnessPS ∧
    stowingWitnessPS.state = PassengerState.stowing ∧
    stowingWitnessPS.stowRemaining ≤ 1 ∧
    (∃ ps', findPS (stowingWitnessSim.processStowing 1).passengerStates 1 =
        Option.some ps' ∧
      (ps'.state = PassengerState.shuffling ∨ ps'.state = PassengerState.seating) ∧
      (stowingWitnessSim.processStowing 1).aircraft =
        (stowingWitnessSim.aircraft.useBinCapacity stowingWitnessPS.aisleRow.toNat
          stowingWitnessPS.passenger.carryOnSize).1 ∧
      (¬ stowingWitnessSim.aircraft.hasBinCapacity stowingWitnessPS.aisleRow.toNat
          stowingWitnessPS.passenger.carryOnSize = true →
        (stowingWitnessSim.processStowing 1).aircraft =
          stowingWitnessSim.aircraft)) ∧
    findPS walkingBagSim.passengerStates 1 = Option.some walkingBagPS ∧
    walkingBagPS.state = PassengerState.walking ∧
    walkingBagPS.aisleRow = (walkingBagPS.passenger.row : Int) ∧
    walkingBagPS.passenger.carryOnSize ≠ CarryOnSize.noBag ∧
    ¬ walkingBagSim.aircraft.hasBinCapacity walkingBagPS.aisleRow.toNat
        walkingBagPS.passenger.carryOnSize = true ∧
    (∃ ps', findPS (walkingBagSim.processWalking 1).passengerStates 1 =
        Option.some ps' ∧
      ps'.state = PassengerState.stowing ∧
      ps'.stowRemaining = (stowTime walkingBagPS.passenger.carryOnSize : Int) ∧
      (walkingBagSim.processWalking 1).events = walkingBagSim.events ++
        [({ step := walkingBagSim.currentStep, type := EventType.stowStart,
            passengerId := walkingBagPS.passenger.id,
            passengerRow := walkingBagPS.passenger.row,
            passengerColumn := walkingBagPS.passenger.col,
            data := EventData.atRow walkingBagPS.aisleRow } : Event),
         ({ step := walkingBagSim.currentStep, type := EventType.binFull,
            passengerId := walkingBagPS.passenger.id,
            passengerRow := walkingBagPS.passenger.row,
            passengerColumn := walkingBagPS.passenger.col,
            data := EventData.atRow walkingBagPS.aisleRow } : Event)]) :=
  ⟨by decide, by decide, by decide,
   stow_best_effort_and_bin_full_logged.1 stowingWitnessSim 1 stowingWitnessPS
     (by decide) (by decide) (by decide),
   by decide, by decide, by decide, by decide, by decide,
   stow_best_effort_and_bin_full_logged.2 walkingBagSim 1 walkingBagPS
     (by decide) (by decide) (by decide) (by decide) (by decide)⟩

theorem validate_rejects_nonfinite_witness :
    (∃ p ∈ [scenarioP1], isFiniteNum ((fun _ : Passenger => JSValue.nan) p) = false) ∧
    (validateAlgorithm (fun _ : Passenger => JSValue.nan) [scenarioP1]).isValid =
      false ∧
    (validateAlgorithm (fun _ : Passenger => JSValue.nan) [scenarioP1]).errors ≠ [] :=
  ⟨by decide,
   (validate_rejects_nonfinite (fun _ : Passenger => JSValue.nan) [scenarioP1]
     (by decide)).1,
   (validate_rejects_nonfinite (fun _ : Passenger => JSValue.nan) [scenarioP1]
     (by decide)).2⟩

end BoardingLab
